import Mathlib

/-!
Verification of the v8.0 Chinese surname position identifier
(`src/surname_identifier_v8.py`, `src/config_v8.py`).

The decision engine is embedded shallowly.  External collaborators
(the surname/pinyin lookup tables generated from `pypinyin`, the
pinyin syllable validator, the affiliation classifier, the Western
name feature probes, Unicode diacritic folding, and `math.exp`) are
modelled as an oracle environment `Env`; the decision engine itself —
tokenisation, mode detection, feature extraction, the three per-mode
scorers, the local decision, and the two batch consistency passes —
is translated line by line from the source.  Scores use `ℚ` where the
Python code uses floats.
-/

namespace SurnameV8

/-- Result of `analyze_affiliation` as consumed by the engine:
`is_chinese` and whether `country` is truthy. -/
structure AffiliationInfo where
  is_chinese : Bool
  has_country : Bool
deriving DecidableEq

/-- Oracle environment for the external collaborators.
`asciiFold` models `strip_diacritics` (Unicode NFD folding),
`pinyin_name` models `is_valid_pinyin_name` returning
(fully-segmentable, syllable count), and `exp` models `math.exp`. -/
structure Env where
  asciiFold : String → String
  is_surname_pinyin : String → Bool
  pinyin_name : String → Bool × Nat
  has_western_suffix : String → Bool
  has_western_consonant_cluster : String → Bool
  is_common_western_surname : String → Bool
  is_likely_western_name : String → Bool
  analyze_affiliation : String → Option AffiliationInfo
  exp : ℚ → ℚ

/-- Token information (class `Token` in the source). -/
structure Token where
  raw : String
  norm : String
  ascii : String
  is_initial : Bool
  has_diacritics : Bool
  char_script : String
deriving DecidableEq

def emptyToken : Token :=
  { raw := "", norm := "", ascii := "", is_initial := false,
    has_diacritics := false, char_script := "LATIN" }

/-- Parsed name (class `ParsedName`): token list plus first/last
non-abbreviation indices, `-1` as the sentinel. -/
structure ParsedName where
  tokens : List Token
  first_idx : Int
  last_idx : Int
deriving DecidableEq

/-- Name decision (class `NameDecision`). -/
structure NameDecision where
  order : String
  confidence : ℚ
  mode : String
  reason_codes : List String
deriving DecidableEq

/-- Name record (class `NameRecord`). -/
structure NameRecord where
  record_id : String
  source : String
  person_id : Option String
  publication_id : Option String
  name_raw : String
  affiliation_raw : Option String
  lang_hint : Option String
deriving DecidableEq

/-- Feature set (class `Features`). -/
structure Features where
  token_count : Nat
  has_initials : Bool
  first_is_cn_surname : Bool
  last_is_cn_surname : Bool
  first_is_west_surname : Bool
  last_is_west_surname : Bool
  first_pinyin_ok : Bool
  last_pinyin_ok : Bool
  first_pinyin_syllables : Nat
  last_pinyin_syllables : Nat
  cn_affiliation : Bool
  west_affiliation : Bool
deriving DecidableEq

def emptyFeatures : Features :=
  { token_count := 0, has_initials := false,
    first_is_cn_surname := false, last_is_cn_surname := false,
    first_is_west_surname := false, last_is_west_surname := false,
    first_pinyin_ok := false, last_pinyin_ok := false,
    first_pinyin_syllables := 0, last_pinyin_syllables := 0,
    cn_affiliation := false, west_affiliation := false }

/-! ## Tokenizer (`preprocess_name`, module 1) -/

/-- ASCII lower-casing, modelling `str.lower` on the inputs the engine
sees (Latin letters are mapped, CJK characters are fixed points). -/
def lowerString (s : String) : String :=
  String.mk (s.toList.map Char.toLower)

/-- `re.sub(r'[,\(\)\[\]]', ' ', s)`: commas, parentheses and square
brackets become spaces. -/
def stripSeps (s : String) : String :=
  String.mk (s.toList.map fun c =>
    if c = ',' ∨ c = '(' ∨ c = ')' ∨ c = '[' ∨ c = ']' then ' ' else c)

/-- Helper for `pySplit`: accumulates the current word (reversed). -/
def pySplitAux : List Char → List Char → List String
  | [], acc => if acc = [] then [] else [String.mk acc.reverse]
  | c :: cs, acc =>
      if c.isWhitespace then
        if acc = [] then pySplitAux cs []
        else String.mk acc.reverse :: pySplitAux cs []
      else pySplitAux cs (c :: acc)

/-- Python `str.split()` with no argument: split on whitespace runs,
dropping empty pieces.  The preceding `strip`/`\s+`-collapse steps of
`preprocess_name` do not change this token list. -/
def pySplit (s : String) : List String :=
  pySplitAux s.toList []

/-- Tail of the regex `[A-Z](\.[A-Z])*\.?`: `(\.[A-Z])*\.?`. -/
def abbrevTail : List Char → Bool
  | [] => true
  | ['.'] => true
  | '.' :: c :: rest => c.isUpper && abbrevTail rest
  | _ => false

/-- Full match of `[A-Z](\.[A-Z])*\.?` — the abbreviation pattern used
both for `Token.is_initial` and in `local_decision` (where the extra
`^[A-Z]$` single-letter pattern is subsumed by this one). -/
def isAbbrevString (s : String) : Bool :=
  match s.toList with
  | c :: rest => c.isUpper && abbrevTail rest
  | [] => false

def isCJKChar (c : Char) : Bool :=
  0x4e00 ≤ c.toNat && c.toNat ≤ 0x9fff

def isCyrillicChar (c : Char) : Bool :=
  0x400 ≤ c.toNat && c.toNat ≤ 0x4ff

/-- `detect_script`. -/
def detect_script (s : String) : String :=
  if s.toList.any isCJKChar then "CJK"
  else if s.toList.any isCyrillicChar then "CYRILLIC"
  else "LATIN"

/-- Builds one `Token` from a rough token (which contains no
whitespace, so the per-token `strip` is the identity). -/
def mkToken (env : Env) (t : String) : Token :=
  let norm := lowerString t
  let ascii := env.asciiFold norm
  { raw := t, norm := norm, ascii := ascii,
    is_initial := isAbbrevString t,
    has_diacritics := norm ≠ ascii,
    char_script := detect_script t }

/-- Indices of non-abbreviation tokens. -/
def nonInitialIndices (ts : List Token) : List Nat :=
  (ts.enum.filter fun p => !p.2.is_initial).map Prod.fst

/-- `preprocess_name`. -/
def preprocess_name (env : Env) (name_raw : String) : ParsedName :=
  let rough_tokens := pySplit (stripSeps name_raw)
  let tokens := rough_tokens.map (mkToken env)
  let nonInit := nonInitialIndices tokens
  if 2 ≤ nonInit.length then
    { tokens := tokens, first_idx := (nonInit.headD 0 : Nat),
      last_idx := (nonInit.getLastD 0 : Nat) }
  else if 2 ≤ tokens.length then
    { tokens := tokens, first_idx := 0, last_idx := (tokens.length : Int) - 1 }
  else
    { tokens := tokens, first_idx := -1, last_idx := -1 }

/-- `parsed.tokens[i]` for an index already checked to be valid. -/
def ParsedName.tok (p : ParsedName) (i : Int) : Token :=
  p.tokens.getD i.toNat emptyToken

/-! ## Configuration (`config_v8.py`) -/

structure SourceConfig where
  chinese_prior_fam : ℚ
  chinese_prior_giv : ℚ
  western_prior_fam : ℚ
  western_prior_giv : ℚ
  mixed_prior_fam : ℚ
  mixed_prior_giv : ℚ
  threshold_cn_unknown : ℚ
  threshold_west_unknown : ℚ
  threshold_mixed_unknown : ℚ
  person_conf_thresh : ℚ
  person_override_thresh : ℚ
  person_override_conf : ℚ
  pub_conf_thresh : ℚ
  pub_override_thresh : ℚ
  pub_override_conf : ℚ
  pub_dominance_min_diff : Int
deriving DecidableEq

def CROSSREF_CONFIG : SourceConfig :=
  { chinese_prior_fam := 0.3, chinese_prior_giv := 0.1,
    western_prior_fam := 0.1, western_prior_giv := 0.5,
    mixed_prior_fam := 0.2, mixed_prior_giv := 0.3,
    threshold_cn_unknown := 0.4, threshold_west_unknown := 0.2,
    threshold_mixed_unknown := 0.3,
    person_conf_thresh := 0.7, person_override_thresh := 0.6,
    person_override_conf := 0.75,
    pub_conf_thresh := 0.7, pub_override_thresh := 0.5,
    pub_override_conf := 0.65, pub_dominance_min_diff := 2 }

def ORCID_CONFIG : SourceConfig :=
  { chinese_prior_fam := 0.3, chinese_prior_giv := 0.1,
    western_prior_fam := 0.1, western_prior_giv := 0.5,
    mixed_prior_fam := 0.2, mixed_prior_giv := 0.3,
    threshold_cn_unknown := 0.4, threshold_west_unknown := 0.2,
    threshold_mixed_unknown := 0.3,
    person_conf_thresh := 0.6, person_override_thresh := 0.5,
    person_override_conf := 0.8,
    pub_conf_thresh := 0.7, pub_override_thresh := 0.5,
    pub_override_conf := 0.65, pub_dominance_min_diff := 2 }

def ISTINA_CONFIG : SourceConfig :=
  { chinese_prior_fam := 0.5, chinese_prior_giv := 0.1,
    western_prior_fam := 0.2, western_prior_giv := 0.3,
    mixed_prior_fam := 0.3, mixed_prior_giv := 0.2,
    threshold_cn_unknown := 0.5, threshold_west_unknown := 0.3,
    threshold_mixed_unknown := 0.4,
    person_conf_thresh := 0.65, person_override_thresh := 0.55,
    person_override_conf := 0.7,
    pub_conf_thresh := 0.65, pub_override_thresh := 0.5,
    pub_override_conf := 0.6, pub_dominance_min_diff := 2 }

def DEFAULT_CONFIG : SourceConfig :=
  { chinese_prior_fam := 0.3, chinese_prior_giv := 0.2,
    western_prior_fam := 0.2, western_prior_giv := 0.4,
    mixed_prior_fam := 0.25, mixed_prior_giv := 0.25,
    threshold_cn_unknown := 0.4, threshold_west_unknown := 0.3,
    threshold_mixed_unknown := 0.4,
    person_conf_thresh := 0.7, person_override_thresh := 0.6,
    person_override_conf := 0.7,
    pub_conf_thresh := 0.7, pub_override_thresh := 0.5,
    pub_override_conf := 0.65, pub_dominance_min_diff := 2 }

/-- `get_config`: `None` and `""` are falsy, lookup in `SOURCE_CONFIGS`
falls back to the default bundle. -/
def get_config : Option String → SourceConfig
  | none => DEFAULT_CONFIG
  | some s =>
      if s = "" then DEFAULT_CONFIG
      else if s = "CROSSREF" ∨ s = "crossref" ∨ s = "Crossref" then CROSSREF_CONFIG
      else if s = "ORCID" ∨ s = "orcid" ∨ s = "Orcid" then ORCID_CONFIG
      else if s = "ISTINA" ∨ s = "istina" ∨ s = "Istina" ∨ s = "ИСТИНА" then ISTINA_CONFIG
      else DEFAULT_CONFIG

/-- `CHINESE_FEATURE_WEIGHTS` dict. -/
def CHINESE_FEATURE_WEIGHTS : String → ℚ
  | "CN_SURNAME_FIRST_ONLY" => 2.0
  | "CN_SURNAME_LAST_ONLY" => 2.0
  | "CN_SURNAME_DOUBLE_FREQ" => 1.5
  | "CN_SURNAME_DOUBLE_DEFAULT" => 1.5
  | "FIRST_VALID_PY_NAME" => 0.8
  | "LAST_VALID_PY_NAME" => 0.8
  | "FIRST_SINGLE_SYLLABLE" => 0.4
  | "LAST_SINGLE_SYLLABLE" => 0.4
  | "CN_AFFILIATION" => 0.5
  | "TWO_TOKENS_CN_SURNAME_LAST" => 0.7
  | "TWO_TOKENS_SINGLE_SYLLABLE" => 0.3
  | _ => 0

/-- `WESTERN_FEATURE_WEIGHTS` dict. -/
def WESTERN_FEATURE_WEIGHTS : String → ℚ
  | "WEST_SURNAME_LAST" => 2.0
  | "WEST_SURNAME_FIRST" => 0.5
  | "CN_SURNAME_FIRST_WITH_CN_AFFIL" => 2.0
  | "CN_SURNAME_LAST_WITH_CN_AFFIL" => 1.0
  | "NO_CN_EVIDENCE_DEFAULT" => 1.0
  | _ => 0

/-- `MIXED_FEATURE_WEIGHTS` dict. -/
def MIXED_FEATURE_WEIGHTS : String → ℚ
  | "CN_SURNAME_FIRST_CN_AFFIL" => 1.5
  | "CN_SURNAME_LAST_CN_AFFIL" => 1.5
  | "CN_SURNAME_ONLY" => 1.0
  | "NO_MATCH_DEFAULT" => 0.5
  | _ => 0

/-- `sigmoid(x) = 1/(1+exp(-x))`, with `math.exp` supplied by the
environment. -/
def sigmoid (env : Env) (x : ℚ) : ℚ :=
  1 / (1 + env.exp (-x))

/-! ## Surname frequency table (`data/surname_frequency.py`) -/

/-- The `SURNAME_FREQUENCY_RANK` dict literal, in source order and
including its duplicate keys (`wang`, `xu`, `li`, …). -/
def SURNAME_FREQUENCY_RANK : List (String × Nat) :=
  [("wang", 1), ("li", 2), ("zhang", 3), ("liu", 4), ("chen", 5),
   ("yang", 6), ("huang", 7), ("zhao", 8), ("wu", 9), ("zhou", 10),
   ("xu", 11), ("sun", 12), ("ma", 13), ("zhu", 14), ("hu", 15),
   ("guo", 16), ("he", 17), ("gao", 18), ("lin", 19), ("luo", 20),
   ("zheng", 21), ("liang", 22), ("xie", 23), ("song", 24), ("tang", 25),
   ("xu", 26), ("deng", 27), ("han", 28), ("feng", 29), ("cao", 30),
   ("peng", 31), ("zeng", 32), ("xiao", 33), ("tian", 34), ("dong", 35),
   ("pan", 36), ("yuan", 37), ("cai", 38), ("jiang", 39), ("yu", 40),
   ("du", 41), ("ye", 42), ("cheng", 43), ("wei", 44), ("su", 45),
   ("lu", 46), ("ding", 47), ("ren", 48), ("shen", 49), ("yao", 50),
   ("lu", 51), ("jiang", 52), ("cui", 53), ("tan", 54), ("liao", 55),
   ("fan", 56), ("wang", 57), ("shi", 58), ("jin", 59), ("wei", 60),
   ("jia", 61), ("xia", 62), ("fu", 63), ("fang", 64), ("zou", 65),
   ("xiong", 66), ("bai", 67), ("meng", 68), ("qin", 69), ("qiu", 70),
   ("hou", 71), ("jiang", 72), ("yin", 73), ("xue", 74), ("yan", 75),
   ("duan", 76), ("lei", 77), ("long", 78), ("li", 79), ("shi", 80),
   ("tao", 81), ("he", 82), ("gu", 83), ("mao", 84), ("hao", 85),
   ("gong", 86), ("shao", 87), ("wan", 88), ("qian", 89), ("yan", 90),
   ("fu", 91), ("wu", 92), ("dai", 93), ("mo", 94), ("kong", 95),
   ("xiang", 96), ("chang", 97)]

/-- Python dict-literal lookup: with duplicate keys the last binding
wins. -/
def dictLookup (l : List (String × Nat)) (k : String) : Option Nat :=
  ((l.filter fun p => p.1 = k).getLast?).map Prod.snd

/-- `get_surname_frequency_rank`: rank 1–97 from the table, 999 for an
unranked surname. -/
def get_surname_frequency_rank (surname_pinyin : String) : Nat :=
  (dictLookup SURNAME_FREQUENCY_RANK (lowerString surname_pinyin)).getD 999

/-! ## Mode detection (`detect_mode`, module 2) -/

/-- The ISTINA-style source tags tested by the engine. -/
def istinaSources : List String := ["ISTINA", "istina", "ИСТИНА"]

/-- The Crossref/ORCID-style source tags tested by the engine. -/
def crossrefOrcidSources : List String := ["CROSSREF", "ORCID", "crossref", "orcid"]

/-- CN3 contribution of one token: +0.2 when it fully segments into
2–3 legal pinyin syllables. -/
def pinyinModeBonus (env : Env) (tok : Token) : ℚ :=
  if (env.pinyin_name tok.ascii).1 ∧ 2 ≤ (env.pinyin_name tok.ascii).2 ∧
      (env.pinyin_name tok.ascii).2 ≤ 3 then 0.2 else 0

/-- CN4 contribution: +0.4 when the (truthy) affiliation is Chinese. -/
def affiliationCnBonus (env : Env) (record : NameRecord) : ℚ :=
  match record.affiliation_raw with
  | none => 0
  | some a =>
      if a = "" then 0
      else match env.analyze_affiliation a with
      | none => 0
      | some info => if info.is_chinese then 0.4 else 0

/-- Chinese evidence total of `detect_mode` (CN1–CN4 plus the ISTINA
source prior). -/
def chineseScore (env : Env) (record : NameRecord) (parsed : ParsedName) : ℚ :=
  (if parsed.tokens.any (fun tok => tok.char_script = "CJK") then 0.9 else 0)
  + (if env.is_surname_pinyin (parsed.tok parsed.first_idx).ascii then 0.4 else 0)
  + (if env.is_surname_pinyin (parsed.tok parsed.last_idx).ascii then 0.2 else 0)
  + pinyinModeBonus env (parsed.tok parsed.first_idx)
  + pinyinModeBonus env (parsed.tok parsed.last_idx)
  + affiliationCnBonus env record
  + (if record.source ∈ istinaSources then 0.2 else 0)

/-- Western evidence total of `detect_mode` (W1–W4 plus the
Crossref/ORCID source prior). -/
def westernScore (env : Env) (record : NameRecord) (parsed : ParsedName) : ℚ :=
  (if env.has_western_suffix (parsed.tok parsed.first_idx).ascii then 0.5 else 0)
  + (if env.has_western_suffix (parsed.tok parsed.last_idx).ascii then 0.5 else 0)
  + (if parsed.tokens.any (fun tok => tok.has_diacritics) then 0.3 else 0)
  + (if env.is_common_western_surname (parsed.tok parsed.last_idx).ascii then 0.5 else 0)
  + (if env.has_western_consonant_cluster (parsed.tok parsed.first_idx).ascii then 0.3 else 0)
  + (if env.has_western_consonant_cluster (parsed.tok parsed.last_idx).ascii then 0.3 else 0)
  + (if record.source ∈ crossrefOrcidSources then 0.2 else 0)

/-- `detect_mode`. -/
def detect_mode (env : Env) (record : NameRecord) (parsed : ParsedName)
    (cfg : SourceConfig) : String :=
  if parsed.first_idx < 0 ∨ parsed.last_idx < 0 then "MIXED"
  else
    let score_cn := chineseScore env record parsed
    let score_west := westernScore env record parsed
    if score_west + 0.3 ≤ score_cn ∧ (0.5 : ℚ) ≤ score_cn then "CHINESE"
    else if score_cn + 0.3 ≤ score_west ∧ (0.5 : ℚ) ≤ score_west then "WESTERN"
    else "MIXED"

/-! ## Feature extraction (`extract_features`, module 3) -/

/-- `extract_features`.  `cfg` and `mode` are taken but unused, as in
the source. -/
def extract_features (env : Env) (record : NameRecord) (parsed : ParsedName)
    (cfg : SourceConfig) (mode : String) : Features :=
  if parsed.first_idx < 0 ∨ parsed.last_idx < 0 then emptyFeatures
  else
    let first := parsed.tok parsed.first_idx
    let last := parsed.tok parsed.last_idx
    let affil : Option AffiliationInfo :=
      match record.affiliation_raw with
      | none => none
      | some a => if a = "" then none else env.analyze_affiliation a
    { token_count := parsed.tokens.length,
      has_initials := parsed.tokens.any (fun t => t.is_initial),
      first_is_cn_surname := env.is_surname_pinyin first.ascii,
      last_is_cn_surname := env.is_surname_pinyin last.ascii,
      first_is_west_surname :=
        env.is_common_western_surname first.ascii || env.is_likely_western_name first.ascii,
      last_is_west_surname :=
        env.is_common_western_surname last.ascii || env.is_likely_western_name last.ascii,
      first_pinyin_ok := (env.pinyin_name first.ascii).1,
      last_pinyin_ok := (env.pinyin_name last.ascii).1,
      first_pinyin_syllables := (env.pinyin_name first.ascii).2,
      last_pinyin_syllables := (env.pinyin_name last.ascii).2,
      cn_affiliation := match affil with
        | some info => info.is_chinese
        | none => false,
      west_affiliation := match affil with
        | some info => !info.is_chinese && info.has_country
        | none => false }

/-! ## Decision engine (modules 4 and 5) -/

/-- Running scorer state: the two competing scores and the ordered
reason codes. -/
structure Score where
  fam : ℚ
  giv : ℚ
  reasons : List String
deriving DecidableEq

def Score.addFam (s : Score) (w : ℚ) (r : String) : Score :=
  { fam := s.fam + w, giv := s.giv, reasons := s.reasons ++ [r] }

def Score.addGiv (s : Score) (w : ℚ) (r : String) : Score :=
  { fam := s.fam, giv := s.giv + w, reasons := s.reasons ++ [r] }

/-- The double-surname disambiguation block of `decide_chinese`
(feature 1, both tokens matching a Chinese surname). -/
def doubleSurnameStep (record : NameRecord) (first_token last_token : Token)
    (s : Score) : Score :=
  if record.source ∈ istinaSources then
    s.addFam (CHINESE_FEATURE_WEIGHTS "CN_SURNAME_DOUBLE_DEFAULT")
      "CN_SURNAME_DOUBLE_DEFAULT_FAM_ISTINA"
  else
    let r_first := get_surname_frequency_rank first_token.ascii
    let r_last := get_surname_frequency_rank last_token.ascii
    if r_first ≠ 0 ∧ r_last ≠ 0 ∧ 20 < ((r_first : Int) - (r_last : Int)).natAbs then
      if r_last < r_first then
        s.addGiv (CHINESE_FEATURE_WEIGHTS "CN_SURNAME_DOUBLE_FREQ")
          ("CN_SURNAME_DOUBLE_FREQ_LAST(" ++ toString r_last ++ "<" ++ toString r_first ++ ")")
      else
        s.addFam (CHINESE_FEATURE_WEIGHTS "CN_SURNAME_DOUBLE_FREQ")
          ("CN_SURNAME_DOUBLE_FREQ_FIRST(" ++ toString r_first ++ "<" ++ toString r_last ++ ")")
    else
      s.addFam (CHINESE_FEATURE_WEIGHTS "CN_SURNAME_DOUBLE_DEFAULT")
        "CN_SURNAME_DOUBLE_DEFAULT_FAM"

/-- The final decision block of `decide_chinese`: unknown on a small
score gap, otherwise the leading order with a capped sigmoid of the
gap. -/
def chineseFinish (env : Env) (cfg : SourceConfig) (s : Score) : NameDecision :=
  let delta := s.fam - s.giv
  if |delta| < cfg.threshold_cn_unknown then
    { order := "unknown", confidence := 0.5, mode := "CHINESE",
      reason_codes := s.reasons ++ ["DELTA_SMALL_CN"] }
  else if 0 < delta then
    { order := "family_first", confidence := min (sigmoid env delta) 0.95,
      mode := "CHINESE", reason_codes := s.reasons }
  else
    { order := "given_first", confidence := min (sigmoid env (-delta)) 0.95,
      mode := "CHINESE", reason_codes := s.reasons }

/-- The final decision block of `decide_western`: `given_first` is
forced on a tie. -/
def westernFinish (env : Env) (cfg : SourceConfig) (s : Score) : NameDecision :=
  let delta := s.fam - s.giv
  if |delta| < cfg.threshold_west_unknown then
    { order := "given_first", confidence := 0.55, mode := "WESTERN",
      reason_codes := s.reasons ++ ["FORCED_GIVEN_ON_TIE"] }
  else if 0 < delta then
    { order := "family_first", confidence := min (sigmoid env delta) 0.95,
      mode := "WESTERN", reason_codes := s.reasons }
  else
    { order := "given_first", confidence := min (sigmoid env (-delta)) 0.95,
      mode := "WESTERN", reason_codes := s.reasons }

/-- The final decision block of `decide_mixed` (lower cap, lower
unknown confidence). -/
def mixedFinish (env : Env) (cfg : SourceConfig) (s : Score) : NameDecision :=
  let delta := s.fam - s.giv
  if |delta| < cfg.threshold_mixed_unknown then
    { order := "unknown", confidence := 0.4, mode := "MIXED",
      reason_codes := s.reasons ++ ["DELTA_SMALL_MIXED"] }
  else if 0 < delta then
    { order := "family_first", confidence := min (sigmoid env delta) 0.9,
      mode := "MIXED", reason_codes := s.reasons }
  else
    { order := "given_first", confidence := min (sigmoid env (-delta)) 0.9,
      mode := "MIXED", reason_codes := s.reasons }

/-- `decide_chinese`. -/
def decide_chinese (env : Env) (record : NameRecord) (parsed : ParsedName)
    (f : Features) (cfg : SourceConfig) : NameDecision :=
  let first_token := parsed.tok parsed.first_idx
  let last_token := parsed.tok parsed.last_idx
  let s : Score := { fam := cfg.chinese_prior_fam, giv := cfg.chinese_prior_giv, reasons := [] }
  let s := if f.first_is_cn_surname ∧ ¬f.last_is_cn_surname then
      s.addFam (CHINESE_FEATURE_WEIGHTS "CN_SURNAME_FIRST_ONLY") "CN_SURNAME_FIRST_ONLY"
    else s
  let s := if f.last_is_cn_surname ∧ ¬f.first_is_cn_surname then
      s.addGiv (CHINESE_FEATURE_WEIGHTS "CN_SURNAME_LAST_ONLY") "CN_SURNAME_LAST_ONLY"
    else s
  let s := if f.first_is_cn_surname ∧ f.last_is_cn_surname then
      doubleSurnameStep record first_token last_token s
    else s
  let s := if f.first_pinyin_ok ∧ 2 ≤ f.first_pinyin_syllables ∧ f.first_pinyin_syllables ≤ 3 then
      s.addGiv (CHINESE_FEATURE_WEIGHTS "FIRST_VALID_PY_NAME")
        ("FIRST_VALID_PY_NAME(" ++ toString f.first_pinyin_syllables ++ "syl)")
    else s
  let s := if f.last_pinyin_ok ∧ 2 ≤ f.last_pinyin_syllables ∧ f.last_pinyin_syllables ≤ 3 then
      s.addFam (CHINESE_FEATURE_WEIGHTS "LAST_VALID_PY_NAME")
        ("LAST_VALID_PY_NAME(" ++ toString f.last_pinyin_syllables ++ "syl)")
    else s
  let s := if f.first_pinyin_ok ∧ f.first_pinyin_syllables = 1 then
      s.addGiv (CHINESE_FEATURE_WEIGHTS "FIRST_SINGLE_SYLLABLE") "FIRST_SINGLE_SYLLABLE"
    else s
  let s := if f.last_pinyin_ok ∧ f.last_pinyin_syllables = 1 then
      s.addFam (CHINESE_FEATURE_WEIGHTS "LAST_SINGLE_SYLLABLE") "LAST_SINGLE_SYLLABLE"
    else s
  let s := if f.cn_affiliation then
      { fam := s.fam + CHINESE_FEATURE_WEIGHTS "CN_AFFILIATION",
        giv := s.giv + CHINESE_FEATURE_WEIGHTS "CN_AFFILIATION",
        reasons := s.reasons ++ ["CN_AFFILIATION"] }
    else s
  let s := if f.token_count = 2 ∧ f.last_is_cn_surname ∧ ¬f.first_is_cn_surname then
      if record.source ∈ crossrefOrcidSources then
        s.addGiv (CHINESE_FEATURE_WEIGHTS "TWO_TOKENS_CN_SURNAME_LAST")
          "TWO_TOKENS_CN_SURNAME_LAST_INTL"
      else
        s.addGiv (CHINESE_FEATURE_WEIGHTS "TWO_TOKENS_SINGLE_SYLLABLE")
          "TWO_TOKENS_CN_SURNAME_LAST_ISTINA"
    else s
  chineseFinish env cfg s

/-- `decide_western`. -/
def decide_western (env : Env) (record : NameRecord) (parsed : ParsedName)
    (f : Features) (cfg : SourceConfig) : NameDecision :=
  let s : Score := { fam := cfg.western_prior_fam, giv := cfg.western_prior_giv, reasons := [] }
  let s := if f.last_is_west_surname then
      s.addGiv (WESTERN_FEATURE_WEIGHTS "WEST_SURNAME_LAST") "WEST_SURNAME_LAST"
    else s
  let s := if f.first_is_west_surname ∧ ¬f.last_is_west_surname then
      s.addFam (WESTERN_FEATURE_WEIGHTS "WEST_SURNAME_FIRST") "WEST_SURNAME_FIRST"
    else s
  let s := if f.first_is_cn_surname ∧ f.cn_affiliation then
      s.addFam (WESTERN_FEATURE_WEIGHTS "CN_SURNAME_FIRST_WITH_CN_AFFIL")
        "CN_SURNAME_FIRST_WITH_CN_AFFIL"
    else s
  let s := if f.last_is_cn_surname ∧ f.cn_affiliation then
      s.addGiv (WESTERN_FEATURE_WEIGHTS "CN_SURNAME_LAST_WITH_CN_AFFIL")
        "CN_SURNAME_LAST_WITH_CN_AFFIL"
    else s
  let s := if ¬(f.first_is_cn_surname ∨ f.last_is_cn_surname ∨ f.cn_affiliation) then
      s.addGiv (WESTERN_FEATURE_WEIGHTS "NO_CN_EVIDENCE_DEFAULT")
        "NO_CN_EVIDENCE_DEFAULT_GIVEN"
    else s
  westernFinish env cfg s

/-- `decide_mixed`. -/
def decide_mixed (env : Env) (record : NameRecord) (parsed : ParsedName)
    (f : Features) (cfg : SourceConfig) : NameDecision :=
  let s : Score := { fam := cfg.mixed_prior_fam, giv := cfg.mixed_prior_giv, reasons := [] }
  let s := if f.first_is_cn_surname ∧ f.cn_affiliation then
      s.addFam (MIXED_FEATURE_WEIGHTS "CN_SURNAME_FIRST_CN_AFFIL")
        "CN_SURNAME_FIRST_CN_AFFIL_MIXED"
    else s
  let s := if f.last_is_cn_surname ∧ f.cn_affiliation then
      s.addGiv (MIXED_FEATURE_WEIGHTS "CN_SURNAME_LAST_CN_AFFIL")
        "CN_SURNAME_LAST_CN_AFFIL_MIXED"
    else s
  let s := if f.first_is_cn_surname ∧ ¬f.last_is_cn_surname then
      s.addFam (MIXED_FEATURE_WEIGHTS "CN_SURNAME_ONLY") "CN_SURNAME_FIRST_ONLY_MIXED"
    else s
  let s := if f.last_is_cn_surname ∧ ¬f.first_is_cn_surname then
      s.addGiv (MIXED_FEATURE_WEIGHTS "CN_SURNAME_ONLY") "CN_SURNAME_LAST_ONLY_MIXED"
    else s
  let s := if ¬f.first_is_cn_surname ∧ ¬f.last_is_cn_surname then
      s.addGiv (MIXED_FEATURE_WEIGHTS "NO_MATCH_DEFAULT") "NO_MATCH_DEFAULT_GIVEN"
    else s
  mixedFinish env cfg s

/-- Steps 3–5 of `local_decision`: mode detection, feature extraction
and dispatch to the per-mode scorer. -/
def modeDispatch (env : Env) (record : NameRecord) (parsed : ParsedName)
    (cfg : SourceConfig) : NameDecision :=
  let mode := detect_mode env record parsed cfg
  let feats := extract_features env record parsed cfg mode
  if mode = "CHINESE" then decide_chinese env record parsed feats cfg
  else if mode = "WESTERN" then decide_western env record parsed feats cfg
  else decide_mixed env record parsed feats cfg

/-- `local_decision` (module 5): invalid-format guard, abbreviation
short-circuits, then mode dispatch. -/
def local_decision (env : Env) (record : NameRecord) (cfg : SourceConfig) : NameDecision :=
  let parsed := preprocess_name env record.name_raw
  if parsed.first_idx < 0 ∨ parsed.last_idx < 0 ∨ parsed.tokens.length < 2 then
    { order := "unknown", confidence := 0.0, mode := "MIXED",
      reason_codes := ["INVALID_FORMAT"] }
  else if parsed.tokens.length = 2 then
    let t0 := parsed.tokens.getD 0 emptyToken
    let t1 := parsed.tokens.getD 1 emptyToken
    if isAbbrevString t1.raw then
      { order := "family_first", confidence := 1.0, mode := "ABBREVIATION",
        reason_codes := ["ABBREV_" ++ t0.raw ++ "_" ++ t1.raw] }
    else if isAbbrevString t0.raw then
      { order := "given_first", confidence := 0.85, mode := "ABBREVIATION",
        reason_codes := ["ABBREV_" ++ t0.raw ++ "_" ++ t1.raw ++ "_REVERSED"] }
    else modeDispatch env record parsed cfg
  else if 3 ≤ parsed.tokens.length ∧ parsed.tokens.tail.all (fun t => isAbbrevString t.raw) then
    { order := "family_first", confidence := 1.0, mode := "ABBREVIATION",
      reason_codes := ["ABBREV_" ++ (parsed.tokens.headD emptyToken).raw ++ "_+"] }
  else modeDispatch env record parsed cfg

/-- `", ".join(reason_codes)`. -/
def joinReasons : List String → String
  | [] => ""
  | [r] => r
  | r :: rest => r ++ ", " ++ joinReasons rest

/-- `identify_surname_position_v8` (single-record interface): returns
(order, confidence, reason string). -/
def identify_surname_position_v8 (env : Env) (original_name : String)
    (affiliation : Option String) (source : Option String)
    (person_id : Option String) (publication_id : Option String) :
    String × ℚ × String :=
  let record : NameRecord :=
    { record_id := "single",
      source := match source with
        | some s => if s = "" then "DEFAULT" else s
        | none => "DEFAULT",
      person_id := person_id, publication_id := publication_id,
      name_raw := original_name, affiliation_raw := affiliation,
      lang_hint := none }
  let cfg := get_config source
  let decision := local_decision env record cfg
  (decision.order, decision.confidence,
    decision.mode ++ ": " ++ joinReasons decision.reason_codes)

/-! ## Batch consistency (module 6) and batch interface -/

/-- The mutable `decisions` dict, as a map from record id. -/
abbrev DecisionMap := String → Option NameDecision

/-- `decisions[k] = v`. -/
def updateMap (d : DecisionMap) (k : String) (v : NameDecision) : DecisionMap :=
  fun x => if x = k then some v else d x

/-- Appends a record id to its key's group, preserving the insertion
order of `defaultdict(list)`. -/
def addToGroups (groups : List (String × List String)) (k rid : String) :
    List (String × List String) :=
  match groups with
  | [] => [(k, [rid])]
  | (k', ids) :: rest =>
      if k' = k then (k', ids ++ [rid]) :: rest
      else (k', ids) :: addToGroups rest k rid

/-- Grouping of record ids by a key field; records whose key is `None`
or `""` (falsy) are ignored. -/
def groupBy (key : NameRecord → Option String) (records : List NameRecord) :
    List (String × List String) :=
  records.foldl (fun gs r =>
    match key r with
    | none => gs
    | some k => if k = "" then gs else addToGroups gs k r.record_id) []

/-- All record ids mentioned by a list of groups. -/
def groupIds (gs : List (String × List String)) : List String :=
  (gs.map Prod.snd).flatten

/-- The record ids of the records carrying a truthy key, in order. -/
def keyIds (key : NameRecord → Option String) : List NameRecord → List String
  | [] => []
  | r :: rest =>
      match key r with
      | none => keyIds key rest
      | some k => if k = "" then keyIds key rest else r.record_id :: keyIds key rest

/-- The replacement Decision written by the person pass. -/
def overridePerson (cfg : SourceConfig) (target : String) (d : NameDecision) :
    NameDecision :=
  { order := target, confidence := max d.confidence cfg.person_override_conf,
    mode := d.mode,
    reason_codes := d.reason_codes ++ ["PERSON_CONSISTENCY_OVERRIDE"] }

/-- Replacement condition of the person-pass override loop:
`d.order == "unknown" or d.confidence < cfg.person_override_thresh`. -/
def personEligible (cfg : SourceConfig) (dd : NameDecision) : Prop :=
  dd.order = "unknown" ∨ dd.confidence < cfg.person_override_thresh

instance (cfg : SourceConfig) (dd : NameDecision) : Decidable (personEligible cfg dd) :=
  inferInstanceAs (Decidable (_ ∨ _))

/-- One iteration of the person-pass override loop. -/
def personStep (cfg : SourceConfig) (target : String) (d : DecisionMap)
    (rid : String) : DecisionMap :=
  match d rid with
  | none => d
  | some dd =>
      if personEligible cfg dd then updateMap d rid (overridePerson cfg target dd)
      else d

/-- The override loop of `adjust_by_person`: every group member that is
unknown or below the override threshold is replaced. -/
def applyPersonOverrides (cfg : SourceConfig) (target : String)
    (rec_ids : List String) (d : DecisionMap) : DecisionMap :=
  rec_ids.foldl (personStep cfg target) d

/-- The body of `adjust_by_person` for one `person_id` group. -/
def processPersonGroup (cfg : SourceConfig) (d : DecisionMap)
    (rec_ids : List String) : DecisionMap :=
  let local_ds := (rec_ids.filterMap d).filter fun dd => dd.order ≠ "unknown"
  if local_ds = [] then d
  else
    let fam := local_ds.filter fun dd =>
      dd.order = "family_first" ∧ cfg.person_conf_thresh ≤ dd.confidence
    let giv := local_ds.filter fun dd =>
      dd.order = "given_first" ∧ cfg.person_conf_thresh ≤ dd.confidence
    if fam.length = 0 ∧ giv.length = 0 then d
    else
      let target := if giv.length ≤ fam.length then "family_first" else "given_first"
      applyPersonOverrides cfg target rec_ids d

/-- `adjust_by_person`. -/
def adjust_by_person (records : List NameRecord) (decisions : DecisionMap)
    (cfg : SourceConfig) : DecisionMap :=
  (groupBy (fun r => r.person_id) records).foldl
    (fun d g => processPersonGroup cfg d g.2) decisions

/-- The replacement Decision written by the publication pass. -/
def overridePub (cfg : SourceConfig) (target : String) (d : NameDecision) :
    NameDecision :=
  { order := target, confidence := cfg.pub_override_conf, mode := d.mode,
    reason_codes := d.reason_codes ++ ["PUB_PATTERN_OVERRIDE"] }

/-- Replacement condition of the publication-pass override loop:
`d.order == "unknown" and d.confidence <= cfg.pub_override_thresh`. -/
def pubEligible (cfg : SourceConfig) (dd : NameDecision) : Prop :=
  dd.order = "unknown" ∧ dd.confidence ≤ cfg.pub_override_thresh

instance (cfg : SourceConfig) (dd : NameDecision) : Decidable (pubEligible cfg dd) :=
  inferInstanceAs (Decidable (_ ∧ _))

/-- One iteration of the publication-pass override loop. -/
def pubStep (cfg : SourceConfig) (target : String) (d : DecisionMap)
    (rid : String) : DecisionMap :=
  match d rid with
  | none => d
  | some dd =>
      if pubEligible cfg dd then updateMap d rid (overridePub cfg target dd)
      else d

/-- The override loop of `adjust_by_publication`: only unknown members
at confidence up to the override threshold are replaced. -/
def applyPubOverrides (cfg : SourceConfig) (target : String)
    (rec_ids : List String) (d : DecisionMap) : DecisionMap :=
  rec_ids.foldl (pubStep cfg target) d

/-- The body of `adjust_by_publication` for one `publication_id` group. -/
def processPubGroup (cfg : SourceConfig) (d : DecisionMap)
    (rec_ids : List String) : DecisionMap :=
  let fam := (rec_ids.filterMap d).filter fun dd =>
    dd.order = "family_first" ∧ cfg.pub_conf_thresh ≤ dd.confidence
  let giv := (rec_ids.filterMap d).filter fun dd =>
    dd.order = "given_first" ∧ cfg.pub_conf_thresh ≤ dd.confidence
  if fam.length = 0 ∧ giv.length = 0 then d
  else if |(fam.length : Int) - (giv.length : Int)| < cfg.pub_dominance_min_diff then d
  else
    let target := if giv.length < fam.length then "family_first" else "given_first"
    applyPubOverrides cfg target rec_ids d

/-- `adjust_by_publication`. -/
def adjust_by_publication (records : List NameRecord) (decisions : DecisionMap)
    (cfg : SourceConfig) : DecisionMap :=
  (groupBy (fun r => r.publication_id) records).foldl
    (fun d g => processPubGroup cfg d g.2) decisions

/-- The two skip conditions of a person group: no usable local
decisions, or no qualifying vote on either side. -/
def personSkips (cfg : SourceConfig) (d : DecisionMap) (ids : List String) : Prop :=
  (ids.filterMap d).filter (fun dd => dd.order ≠ "unknown") = [] ∨
  ((((ids.filterMap d).filter fun dd => dd.order ≠ "unknown").filter
      fun dd => dd.order = "family_first" ∧ cfg.person_conf_thresh ≤ dd.confidence).length = 0 ∧
   (((ids.filterMap d).filter fun dd => dd.order ≠ "unknown").filter
      fun dd => dd.order = "given_first" ∧ cfg.person_conf_thresh ≤ dd.confidence).length = 0)

/-- The two skip conditions of a publication group: no qualifying vote,
or no dominant majority. -/
def pubSkips (cfg : SourceConfig) (d : DecisionMap) (ids : List String) : Prop :=
  (((ids.filterMap d).filter
      fun dd => dd.order = "family_first" ∧ cfg.pub_conf_thresh ≤ dd.confidence).length = 0 ∧
   ((ids.filterMap d).filter
      fun dd => dd.order = "given_first" ∧ cfg.pub_conf_thresh ≤ dd.confidence).length = 0) ∨
  |(((ids.filterMap d).filter
      fun dd => dd.order = "family_first" ∧ cfg.pub_conf_thresh ≤ dd.confidence).length : Int) -
    (((ids.filterMap d).filter
      fun dd => dd.order = "given_first" ∧ cfg.pub_conf_thresh ≤ dd.confidence).length : Int)| <
    cfg.pub_dominance_min_diff

/-- Step 1 of the batch interface: each record is decided with its own
source's configuration (batch `cfg` only for records with a falsy
source tag). -/
def localDecisions (env : Env) (records : List NameRecord) (cfg : SourceConfig) :
    DecisionMap :=
  records.foldl (fun d r =>
    let rec_cfg := if r.source = "" then cfg else get_config (some r.source)
    updateMap d r.record_id (local_decision env r rec_cfg)) (fun _ => none)

/-- `batch_identify_surname_position_v8`. -/
def batch_identify_surname_position_v8 (env : Env) (records : List NameRecord)
    (source : Option String) (enable_person_consistency enable_pub_consistency : Bool) :
    DecisionMap :=
  let cfg := get_config source
  let decisions := localDecisions env records cfg
  let decisions :=
    if enable_person_consistency then adjust_by_person records decisions cfg
    else decisions
  let decisions :=
    if enable_pub_consistency then adjust_by_publication records decisions cfg
    else decisions
  decisions

/-- "Nothing replaceable at `x`": absent, or ineligible for the person
override. -/
def PersonSettledAt (cfg : SourceConfig) (d : DecisionMap) (x : String) : Prop :=
  ∀ dd, d x = some dd → ¬personEligible cfg dd

/-- "Nothing replaceable at `x`" for the publication override. -/
def PubSettledAt (cfg : SourceConfig) (d : DecisionMap) (x : String) : Prop :=
  ∀ dd, d x = some dd → ¬pubEligible cfg dd

/-- The Decision invariant of the spec, with the mode set as coded
(the short-circuit adds a fourth mode value). -/
def DecisionInvariant (d : NameDecision) : Prop :=
  0 ≤ d.confidence ∧ d.confidence ≤ 1 ∧
  (d.order = "family_first" ∨ d.order = "given_first" ∨ d.order = "unknown") ∧
  (d.mode = "CHINESE" ∨ d.mode = "WESTERN" ∨ d.mode = "MIXED" ∨ d.mode = "ABBREVIATION")

/-! ## Concrete instantiations used by witnesses and counterexamples -/

/-- Oracle environment with no lookup hits: ASCII folding is the
identity (exact for diacritic-free input), no surname/pinyin/affiliation
matches, and a constant positive stand-in for `math.exp`. -/
def env0 : Env :=
  { asciiFold := id, is_surname_pinyin := fun _ => false,
    pinyin_name := fun _ => (false, 0),
    has_western_suffix := fun _ => false,
    has_western_consonant_cluster := fun _ => false,
    is_common_western_surname := fun _ => false,
    is_likely_western_name := fun _ => false,
    analyze_affiliation := fun _ => none,
    exp := fun _ => 1 }

/-- Oracle environment consistent with the documented lookup data on
`ouyang` and `wang`: both are surnames (`is_surname_pinyin('OUYANG')`
and `is_surname_pinyin('wang')` are documented `True`), `ouyang`
segments into 2 pinyin syllables and `wang` into 1. -/
def env1 : Env :=
  { asciiFold := id,
    is_surname_pinyin := fun s => s = "ouyang" ∨ s = "wang",
    pinyin_name := fun s =>
      if s = "ouyang" then (true, 2) else if s = "wang" then (true, 1) else (false, 0),
    has_western_suffix := fun _ => false,
    has_western_consonant_cluster := fun _ => false,
    is_common_western_surname := fun _ => false,
    is_likely_western_name := fun _ => false,
    analyze_affiliation := fun _ => none,
    exp := fun _ => 1 }

/-- A `NameRecord` with only identifier, source, grouping ids and name. -/
def mkRec (rid src : String) (pid pub : Option String) (name : String) : NameRecord :=
  { record_id := rid, source := src, person_id := pid, publication_id := pub,
    name_raw := name, affiliation_raw := none, lang_hint := none }

/-- Replaces only the source tag of a record. -/
def setSource (r : NameRecord) (s : String) : NameRecord :=
  { r with source := s }

end SurnameV8

namespace SurnameV8

/-! ## Helper lemmas about the tokenizer -/

/-- With at least two tokens, `preprocess_name` never emits the `-1`
sentinels. -/
theorem preprocess_idx_nonneg (env : Env) (name : String)
    (h : 2 ≤ (preprocess_name env name).tokens.length) :
    0 ≤ (preprocess_name env name).first_idx ∧
      0 ≤ (preprocess_name env name).last_idx := by
  simp only [preprocess_name] at h ⊢
  split_ifs at h ⊢ with h1 h2
  · exact ⟨Int.natCast_nonneg _, Int.natCast_nonneg _⟩
  · simp only at h ⊢
    omega
  · simp only at h
    omega

/-- The token list of a parsed name. -/
theorem preprocess_tokens (env : Env) (name : String) :
    (preprocess_name env name).tokens = (pySplit (stripSeps name)).map (mkToken env) := by
  simp only [preprocess_name]
  split_ifs <;> rfl

/-! ## C1 -/

/-- C1: whenever tokenization yields exactly two tokens with the second
an abbreviation, or three-plus tokens in which every token after the
first is an abbreviation, `local_decision` short-circuits to
`family_first` at confidence 1.0, for every oracle environment, record
and source configuration. -/
theorem abbreviation_shortcircuit_family_first (env : Env) (record : NameRecord)
    (cfg : SourceConfig)
    (h : ((preprocess_name env record.name_raw).tokens.length = 2 ∧
            isAbbrevString
              (((preprocess_name env record.name_raw).tokens.getD 1 emptyToken).raw) = true) ∨
         (3 ≤ (preprocess_name env record.name_raw).tokens.length ∧
            ((preprocess_name env record.name_raw).tokens.tail.all
              fun t => isAbbrevString t.raw) = true)) :
    (local_decision env record cfg).order = "family_first" ∧
      (local_decision env record cfg).confidence = 1 := by
  have hlen : 2 ≤ (preprocess_name env record.name_raw).tokens.length := by
    rcases h with ⟨h2, _⟩ | ⟨h3, _⟩
    · omega
    · omega
  obtain ⟨hf, hl⟩ := preprocess_idx_nonneg env record.name_raw hlen
  have hguard : ¬((preprocess_name env record.name_raw).first_idx < 0 ∨
      (preprocess_name env record.name_raw).last_idx < 0 ∨
      (preprocess_name env record.name_raw).tokens.length < 2) := by
    push_neg
    exact ⟨hf, hl, hlen⟩
  rcases h with ⟨h2, habb⟩ | ⟨h3, hall⟩
  · simp only [local_decision]
    rw [if_neg hguard, if_pos h2, if_pos habb]
    exact ⟨rfl, by norm_num⟩
  · have hne2 : ¬(preprocess_name env record.name_raw).tokens.length = 2 := by omega
    simp only [local_decision]
    rw [if_neg hguard, if_neg hne2, if_pos ⟨h3, hall⟩]
    exact ⟨rfl, by norm_num⟩

theorem abbreviation_shortcircuit_family_first_witness :
    ((preprocess_name env0 (mkRec "w1" "CROSSREF" none none "Liu W.").name_raw).tokens.length = 2 ∧
      isAbbrevString
        (((preprocess_name env0 (mkRec "w1" "CROSSREF" none none "Liu W.").name_raw).tokens.getD
          1 emptyToken).raw) = true) ∧
    (local_decision env0 (mkRec "w1" "CROSSREF" none none "Liu W.") CROSSREF_CONFIG).order
        = "family_first" ∧
    (local_decision env0 (mkRec "w1" "CROSSREF" none none "Liu W.") CROSSREF_CONFIG).confidence
        = 1 :=
  ⟨⟨by with_unfolding_all decide, by with_unfolding_all decide⟩,
    abbreviation_shortcircuit_family_first env0 (mkRec "w1" "CROSSREF" none none "Liu W.")
      CROSSREF_CONFIG
      (Or.inl ⟨by with_unfolding_all decide, by with_unfolding_all decide⟩)⟩

/-! ## C9 -/

/-- C9: two tokens with the first an abbreviation and the second not —
the reversed-abbreviation branch — yields `given_first` at confidence
0.85 with mode `ABBREVIATION`, bypassing mode detection and scoring. -/
theorem reversed_abbreviation_given_first (env : Env) (record : NameRecord)
    (cfg : SourceConfig)
    (h2 : (preprocess_name env record.name_raw).tokens.length = 2)
    (h0 : isAbbrevString
      (((preprocess_name env record.name_raw).tokens.getD 0 emptyToken).raw) = true)
    (h1 : isAbbrevString
      (((preprocess_name env record.name_raw).tokens.getD 1 emptyToken).raw) = false) :
    (local_decision env record cfg).order = "given_first" ∧
      (local_decision env record cfg).confidence = 0.85 ∧
      (local_decision env record cfg).mode = "ABBREVIATION" := by
  have hlen : 2 ≤ (preprocess_name env record.name_raw).tokens.length := by omega
  obtain ⟨hf, hl⟩ := preprocess_idx_nonneg env record.name_raw hlen
  have hguard : ¬((preprocess_name env record.name_raw).first_idx < 0 ∨
      (preprocess_name env record.name_raw).last_idx < 0 ∨
      (preprocess_name env record.name_raw).tokens.length < 2) := by
    push_neg
    exact ⟨hf, hl, hlen⟩
  have h1' : ¬(isAbbrevString
      (((preprocess_name env record.name_raw).tokens.getD 1 emptyToken).raw) = true) := by
    rw [h1]
    exact Bool.false_ne_true
  simp only [local_decision]
  rw [if_neg hguard, if_pos h2, if_neg h1', if_pos h0]
  exact ⟨rfl, rfl, rfl⟩

theorem reversed_abbreviation_given_first_witness :
    ((preprocess_name env0 (mkRec "w9" "" none none "W. Liu").name_raw).tokens.length = 2 ∧
      isAbbrevString
        (((preprocess_name env0 (mkRec "w9" "" none none "W. Liu").name_raw).tokens.getD
          0 emptyToken).raw) = true ∧
      isAbbrevString
        (((preprocess_name env0 (mkRec "w9" "" none none "W. Liu").name_raw).tokens.getD
          1 emptyToken).raw) = false) ∧
    (local_decision env0 (mkRec "w9" "" none none "W. Liu") DEFAULT_CONFIG).order
        = "given_first" ∧
    (local_decision env0 (mkRec "w9" "" none none "W. Liu") DEFAULT_CONFIG).confidence = 0.85 ∧
    (local_decision env0 (mkRec "w9" "" none none "W. Liu") DEFAULT_CONFIG).mode
        = "ABBREVIATION" :=
  ⟨⟨by with_unfolding_all decide, by with_unfolding_all decide, by with_unfolding_all decide⟩,
    reversed_abbreviation_given_first env0 (mkRec "w9" "" none none "W. Liu") DEFAULT_CONFIG
      (by with_unfolding_all decide) (by with_unfolding_all decide)
      (by with_unfolding_all decide)⟩

/-! ## C8 -/

/-- C8: empty input tokenizes to a zero-token `ParsedName` with the
`-1` sentinel indices; every input with fewer than two tokens gets the
`unknown`/0.0 Decision; classifying `""` through the single-record
interface returns order `unknown` with confidence 0.0. -/
theorem empty_input_unknown (env : Env) (record : NameRecord) (cfg : SourceConfig)
    (aff src pid pub : Option String)
    (h : (preprocess_name env record.name_raw).tokens.length < 2) :
    preprocess_name env "" = { tokens := [], first_idx := -1, last_idx := -1 } ∧
    local_decision env record cfg =
      { order := "unknown", confidence := 0, mode := "MIXED",
        reason_codes := ["INVALID_FORMAT"] } ∧
    (identify_surname_position_v8 env "" aff src pid pub).1 = "unknown" ∧
    (identify_surname_position_v8 env "" aff src pid pub).2.1 = 0 := by
  have hempty : preprocess_name env "" =
      { tokens := [], first_idx := -1, last_idx := -1 } := by
    with_unfolding_all rfl
  have hld : ∀ r : NameRecord, ∀ c : SourceConfig,
      (preprocess_name env r.name_raw).tokens.length < 2 →
      local_decision env r c =
        { order := "unknown", confidence := 0, mode := "MIXED",
          reason_codes := ["INVALID_FORMAT"] } := by
    intro r c hr
    simp only [local_decision]
    rw [if_pos (Or.inr (Or.inr hr))]
    norm_num
  refine ⟨hempty, hld record cfg h, ?_, ?_⟩
  · simp only [identify_surname_position_v8]
    rw [hld _ _ (by rw [hempty]; norm_num)]
  · simp only [identify_surname_position_v8]
    rw [hld _ _ (by rw [hempty]; norm_num)]

theorem empty_input_unknown_witness :
    ((preprocess_name env0 (mkRec "w8" "" none none "  ").name_raw).tokens.length < 2) ∧
    preprocess_name env0 "" = { tokens := [], first_idx := -1, last_idx := -1 } ∧
    local_decision env0 (mkRec "w8" "" none none "  ") DEFAULT_CONFIG =
      { order := "unknown", confidence := 0, mode := "MIXED",
        reason_codes := ["INVALID_FORMAT"] } ∧
    (identify_surname_position_v8 env0 "" none none none none).1 = "unknown" ∧
    (identify_surname_position_v8 env0 "" none none none none).2.1 = 0 :=
  ⟨by with_unfolding_all decide,
    empty_input_unknown env0 (mkRec "w8" "" none none "  ") DEFAULT_CONFIG none none none none
      (by with_unfolding_all decide)⟩

/-! ## C6 -/

/-- C6: with two usable tokens, `detect_mode` returns `CHINESE` exactly
when `chinese_score ≥ western_score + 0.3` and `chinese_score ≥ 0.5`,
`WESTERN` under the mirrored condition, and `MIXED` otherwise, where
the scores are the accumulated evidence totals; the totals include the
per-source prior: +0.2 western for Crossref/ORCID-style sources and
+0.2 chinese for ISTINA-style sources. -/
theorem mode_classifier_rule (env : Env) (record : NameRecord) (parsed : ParsedName)
    (cfg : SourceConfig) (h1 : 0 ≤ parsed.first_idx) (h2 : 0 ≤ parsed.last_idx) :
    detect_mode env record parsed cfg =
      (if westernScore env record parsed + 0.3 ≤ chineseScore env record parsed ∧
          (0.5 : ℚ) ≤ chineseScore env record parsed then "CHINESE"
       else if chineseScore env record parsed + 0.3 ≤ westernScore env record parsed ∧
          (0.5 : ℚ) ≤ westernScore env record parsed then "WESTERN"
       else "MIXED") ∧
    (record.source ∈ istinaSources →
      chineseScore env record parsed =
        chineseScore env (setSource record "DEFAULT") parsed + 0.2) ∧
    (record.source ∈ crossrefOrcidSources →
      westernScore env record parsed =
        westernScore env (setSource record "DEFAULT") parsed + 0.2) := by
  have hguard : ¬(parsed.first_idx < 0 ∨ parsed.last_idx < 0) := by
    push_neg
    exact ⟨h1, h2⟩
  refine ⟨?_, ?_, ?_⟩
  · simp only [detect_mode]
    rw [if_neg hguard]
  · intro hsrc
    have hsrc' : record.source = "ISTINA" ∨ record.source = "istina" ∨
        record.source = "ИСТИНА" := by
      simpa [istinaSources] using hsrc
    have hdef : ¬("DEFAULT" = "ISTINA" ∨ "DEFAULT" = "istina" ∨
        "DEFAULT" = "ИСТИНА") := by decide
    simp only [chineseScore, affiliationCnBonus, setSource, istinaSources,
      List.mem_cons, List.not_mem_nil, or_false]
    rw [if_pos hsrc', if_neg hdef]
    ring
  · intro hsrc
    have hsrc' : record.source = "CROSSREF" ∨ record.source = "ORCID" ∨
        record.source = "crossref" ∨ record.source = "orcid" := by
      simpa [crossrefOrcidSources] using hsrc
    have hdef : ¬("DEFAULT" = "CROSSREF" ∨ "DEFAULT" = "ORCID" ∨
        "DEFAULT" = "crossref" ∨ "DEFAULT" = "orcid") := by decide
    simp only [westernScore, setSource, crossrefOrcidSources,
      List.mem_cons, List.not_mem_nil, or_false]
    rw [if_pos hsrc', if_neg hdef]
    ring

theorem mode_classifier_rule_witness :
    (0 ≤ (preprocess_name env0 "Tang Tianxiang").first_idx ∧
      0 ≤ (preprocess_name env0 "Tang Tianxiang").last_idx) ∧
    detect_mode env0 (mkRec "w6" "ISTINA" none none "Tang Tianxiang")
        (preprocess_name env0 "Tang Tianxiang") ISTINA_CONFIG =
      (if westernScore env0 (mkRec "w6" "ISTINA" none none "Tang Tianxiang")
            (preprocess_name env0 "Tang Tianxiang") + 0.3 ≤
          chineseScore env0 (mkRec "w6" "ISTINA" none none "Tang Tianxiang")
            (preprocess_name env0 "Tang Tianxiang") ∧
          (0.5 : ℚ) ≤ chineseScore env0 (mkRec "w6" "ISTINA" none none "Tang Tianxiang")
            (preprocess_name env0 "Tang Tianxiang") then "CHINESE"
       else if chineseScore env0 (mkRec "w6" "ISTINA" none none "Tang Tianxiang")
            (preprocess_name env0 "Tang Tianxiang") + 0.3 ≤
          westernScore env0 (mkRec "w6" "ISTINA" none none "Tang Tianxiang")
            (preprocess_name env0 "Tang Tianxiang") ∧
          (0.5 : ℚ) ≤ westernScore env0 (mkRec "w6" "ISTINA" none none "Tang Tianxiang")
            (preprocess_name env0 "Tang Tianxiang") then "WESTERN"
       else "MIXED") :=
  ⟨⟨by with_unfolding_all decide, by with_unfolding_all decide⟩,
    (mode_classifier_rule env0 (mkRec "w6" "ISTINA" none none "Tang Tianxiang")
      (preprocess_name env0 "Tang Tianxiang") ISTINA_CONFIG
      (by with_unfolding_all decide) (by with_unfolding_all decide)).1⟩

/-! ## C2 (corrected): helper bound lemmas -/

theorem sigmoid_bounds (env : Env) (hexp : ∀ x, 0 < env.exp x) (x : ℚ) :
    0 < sigmoid env x ∧ sigmoid env x < 1 := by
  have he := hexp (-x)
  constructor
  · exact div_pos one_pos (by linarith)
  · rw [sigmoid, div_lt_one (by linarith)]
    linarith

theorem minConf_bounds (env : Env) (hexp : ∀ x, 0 < env.exp x) (x c : ℚ)
    (hc0 : 0 ≤ c) (hc1 : c ≤ 1) :
    0 ≤ min (sigmoid env x) c ∧ min (sigmoid env x) c ≤ 1 :=
  ⟨le_min (sigmoid_bounds env hexp x).1.le hc0, le_trans (min_le_right _ _) hc1⟩

theorem chineseFinish_invariant (env : Env) (cfg : SourceConfig) (s : Score)
    (hexp : ∀ x, 0 < env.exp x) : DecisionInvariant (chineseFinish env cfg s) := by
  simp only [chineseFinish, DecisionInvariant]
  split_ifs <;>
    simp [minConf_bounds env hexp _ (0.95 : ℚ) (by norm_num) (by norm_num)] <;>
    norm_num

theorem westernFinish_invariant (env : Env) (cfg : SourceConfig) (s : Score)
    (hexp : ∀ x, 0 < env.exp x) : DecisionInvariant (westernFinish env cfg s) := by
  simp only [westernFinish, DecisionInvariant]
  split_ifs <;>
    simp [minConf_bounds env hexp _ (0.95 : ℚ) (by norm_num) (by norm_num)] <;>
    norm_num

theorem mixedFinish_invariant (env : Env) (cfg : SourceConfig) (s : Score)
    (hexp : ∀ x, 0 < env.exp x) : DecisionInvariant (mixedFinish env cfg s) := by
  simp only [mixedFinish, DecisionInvariant]
  split_ifs <;>
    simp [minConf_bounds env hexp _ (0.9 : ℚ) (by norm_num) (by norm_num)] <;>
    norm_num

theorem modeDispatch_invariant (env : Env) (record : NameRecord) (parsed : ParsedName)
    (cfg : SourceConfig) (hexp : ∀ x, 0 < env.exp x) :
    DecisionInvariant (modeDispatch env record parsed cfg) := by
  simp only [modeDispatch]
  split_ifs
  · simp only [decide_chinese]
    exact chineseFinish_invariant env cfg _ hexp
  · simp only [decide_western]
    exact westernFinish_invariant env cfg _ hexp
  · simp only [decide_mixed]
    exact mixedFinish_invariant env cfg _ hexp

/-! ## C2 (corrected) -/

/-- C2 counterexample: on `"Liu W."` the abbreviation short-circuit
emits mode `"ABBREVIATION"`, which is none of CHINESE/WESTERN/MIXED,
so the claimed three-valued mode set is wrong. -/
theorem decision_mode_abbreviation_counterexample :
    (local_decision env0 (mkRec "c2" "" none none "Liu W.") DEFAULT_CONFIG).mode
        = "ABBREVIATION" ∧
    ¬((local_decision env0 (mkRec "c2" "" none none "Liu W.") DEFAULT_CONFIG).mode = "CHINESE" ∨
      (local_decision env0 (mkRec "c2" "" none none "Liu W.") DEFAULT_CONFIG).mode = "WESTERN" ∨
      (local_decision env0 (mkRec "c2" "" none none "Liu W.") DEFAULT_CONFIG).mode = "MIXED") :=
  by with_unfolding_all decide

/-- C2 (amended): for every record and configuration (and positive
`math.exp` oracle), the local Decision has confidence in [0,1], order
in the three documented values, and mode in CHINESE / WESTERN / MIXED
/ ABBREVIATION — the short-circuit branches emit the fourth value the
claim omits. -/
theorem decision_invariants_amended (env : Env) (record : NameRecord)
    (cfg : SourceConfig) (hexp : ∀ x, 0 < env.exp x) :
    DecisionInvariant (local_decision env record cfg) := by
  simp only [local_decision]
  split_ifs
  · exact ⟨by norm_num, by norm_num, by simp, by simp⟩
  · exact ⟨by norm_num, by norm_num, by simp, by simp⟩
  · exact ⟨by norm_num, by norm_num, by simp, by simp⟩
  · exact modeDispatch_invariant env record _ cfg hexp
  · exact ⟨by norm_num, by norm_num, by simp, by simp⟩
  · exact modeDispatch_invariant env record _ cfg hexp

theorem decision_invariants_amended_witness :
    (∀ x, 0 < env0.exp x) ∧
    DecisionInvariant
      (local_decision env0 (mkRec "c2w" "ORCID" none none "David Smith") ORCID_CONFIG) :=
  ⟨fun x => by norm_num [env0],
    decision_invariants_amended env0 (mkRec "c2w" "ORCID" none none "David Smith")
      ORCID_CONFIG (fun x => by norm_num [env0])⟩

/-! ## C7 (corrected): helper lemmas -/

/-- The frequency-rank lookup never returns 0 (table ranks are 1–97,
missing surnames get 999), so the truthiness guard in the
double-surname branch never fires. -/
theorem rank_ne_zero (s : String) : get_surname_frequency_rank s ≠ 0 := by
  have hvals : ∀ v ∈ SURNAME_FREQUENCY_RANK.map Prod.snd, v ≠ 0 := by decide
  unfold get_surname_frequency_rank dictLookup
  cases hl : (SURNAME_FREQUENCY_RANK.filter fun p => p.1 = lowerString s).getLast? with
  | none => simp
  | some p =>
      have hp : p ∈ SURNAME_FREQUENCY_RANK.filter fun q => q.1 = lowerString s := by
        obtain ⟨hne, hx⟩ := List.mem_getLast?_eq_getLast (Option.mem_def.mpr hl)
        exact hx ▸ List.getLast_mem hne
      have hmem : p ∈ SURNAME_FREQUENCY_RANK := List.mem_of_mem_filter hp
      have := hvals p.2 (List.mem_map_of_mem Prod.snd hmem)
      simpa [hl] using this

theorem mem_reasons_ite (r : String) (c : Prop) [Decidable c] (a b : Score)
    (ha : r ∈ a.reasons) (hb : r ∈ b.reasons) : r ∈ (if c then a else b).reasons := by
  by_cases hc : c
  · rwa [if_pos hc]
  · rwa [if_neg hc]

theorem mem_reasons_append (r : String) (x y : ℚ) (L1 L2 : List String)
    (h : r ∈ L1) : r ∈ (Score.mk x y (L1 ++ L2)).reasons :=
  List.mem_append_left _ h

theorem mem_chineseFinish_reasons (env : Env) (cfg : SourceConfig) (s : Score)
    (r : String) (h : r ∈ s.reasons) :
    r ∈ (chineseFinish env cfg s).reason_codes := by
  simp only [chineseFinish]
  split_ifs
  · exact List.mem_append_left _ h
  · exact h
  · exact h

/-- The double-surname step on an ISTINA-style source. -/
theorem doubleSurnameStep_istina (record : NameRecord) (fst lst : Token) (s : Score)
    (h : record.source ∈ istinaSources) :
    (doubleSurnameStep record fst lst s).reasons =
      s.reasons ++ ["CN_SURNAME_DOUBLE_DEFAULT_FAM_ISTINA"] := by
  simp only [doubleSurnameStep]
  rw [if_pos h]
  simp [Score.addFam]

/-- The double-surname step on other sources with a decisive rank gap. -/
theorem doubleSurnameStep_freq (record : NameRecord) (fst lst : Token) (s : Score)
    (h : record.source ∉ istinaSources)
    (hgap : get_surname_frequency_rank fst.ascii ≠ 0 ∧
      get_surname_frequency_rank lst.ascii ≠ 0 ∧
      20 < ((get_surname_frequency_rank fst.ascii : Int) -
        (get_surname_frequency_rank lst.ascii : Int)).natAbs) :
    (doubleSurnameStep record fst lst s).reasons =
      (if get_surname_frequency_rank lst.ascii < get_surname_frequency_rank fst.ascii then
        s.reasons ++ ["CN_SURNAME_DOUBLE_FREQ_LAST(" ++
          toString (get_surname_frequency_rank lst.ascii) ++ "<" ++
          toString (get_surname_frequency_rank fst.ascii) ++ ")"]
      else
        s.reasons ++ ["CN_SURNAME_DOUBLE_FREQ_FIRST(" ++
          toString (get_surname_frequency_rank fst.ascii) ++ "<" ++
          toString (get_surname_frequency_rank lst.ascii) ++ ")"]) := by
  simp only [doubleSurnameStep]
  rw [if_neg h, if_pos hgap]
  split_ifs
  · simp [Score.addGiv]
  · simp [Score.addFam]

/-- The double-surname step on other sources with a small rank gap. -/
theorem doubleSurnameStep_default (record : NameRecord) (fst lst : Token) (s : Score)
    (h : record.source ∉ istinaSources)
    (hgap : ¬(get_surname_frequency_rank fst.ascii ≠ 0 ∧
      get_surname_frequency_rank lst.ascii ≠ 0 ∧
      20 < ((get_surname_frequency_rank fst.ascii : Int) -
        (get_surname_frequency_rank lst.ascii : Int)).natAbs)) :
    (doubleSurnameStep record fst lst s).reasons =
      s.reasons ++ ["CN_SURNAME_DOUBLE_DEFAULT_FAM"] := by
  simp only [doubleSurnameStep]
  rw [if_neg h, if_neg hgap]
  simp [Score.addFam]

set_option maxRecDepth 8000 in
/-- Reasons recorded by the double-surname step survive into the final
Chinese decision. -/
theorem double_step_reasons_propagate (env : Env) (record : NameRecord)
    (parsed : ParsedName) (f : Features) (cfg : SourceConfig)
    (hfirst : f.first_is_cn_surname = true) (hlast : f.last_is_cn_surname = true)
    (r : String)
    (hr : r ∈ (doubleSurnameStep record (parsed.tok parsed.first_idx)
      (parsed.tok parsed.last_idx)
      { fam := cfg.chinese_prior_fam, giv := cfg.chinese_prior_giv, reasons := [] }).reasons) :
    r ∈ (decide_chinese env record parsed f cfg).reason_codes := by
  have h1 : ¬(f.first_is_cn_surname = true ∧ ¬f.last_is_cn_surname = true) :=
    fun hc => hc.2 hlast
  have h2 : ¬(f.last_is_cn_surname = true ∧ ¬f.first_is_cn_surname = true) :=
    fun hc => hc.2 hfirst
  simp only [decide_chinese, Score.addFam, Score.addGiv]
  rw [if_neg h1, if_neg h2,
    if_pos (show f.first_is_cn_surname = true ∧ f.last_is_cn_surname = true from
      ⟨hfirst, hlast⟩)]
  apply mem_chineseFinish_reasons
  repeat
    first
      | exact hr
      | apply mem_reasons_ite
      | apply mem_reasons_append

/-! ## C7 (corrected) -/

/-- C7 counterexample: in `"Ouyang Wang"` (both tokens Chinese
surnames per the documented lookup) the first surname has no entry in
the frequency table, so its rank is the sentinel 999 rather than a
missing value; the branch does NOT treat it as a tie defaulting to
family_first — it compares 999 against 57 and pushes the
given-first side, and the decision comes out `given_first`. -/
theorem double_surname_missing_rank_counterexample :
    dictLookup SURNAME_FREQUENCY_RANK "ouyang" = none ∧
    get_surname_frequency_rank "ouyang" = 999 ∧
    get_surname_frequency_rank "wang" = 57 ∧
    env1.is_surname_pinyin "ouyang" = true ∧
    env1.is_surname_pinyin "wang" = true ∧
    (local_decision env1 (mkRec "c7" "CROSSREF" none none "Ouyang Wang")
        CROSSREF_CONFIG).order = "given_first" ∧
    "CN_SURNAME_DOUBLE_FREQ_LAST(57<999)" ∈
      (local_decision env1 (mkRec "c7" "CROSSREF" none none "Ouyang Wang")
        CROSSREF_CONFIG).reason_codes ∧
    ¬("CN_SURNAME_DOUBLE_DEFAULT_FAM" ∈
      (local_decision env1 (mkRec "c7" "CROSSREF" none none "Ouyang Wang")
        CROSSREF_CONFIG).reason_codes) := by
  with_unfolding_all decide

/-- C7 (amended): in the Chinese-mode scorer with both content tokens
matching the surname lookup, ISTINA-style sources take the
family-first double-surname default; every other source compares the
two frequency ranks — where an unranked surname participates with the
sentinel rank 999 rather than forcing a tie — and routes the weight to
the order that treats the more-common-ranked token as the surname when
the gap exceeds 20, defaulting to family_first only when the gap is at
most 20. -/
theorem double_surname_rule_amended (env : Env) (record : NameRecord)
    (parsed : ParsedName) (f : Features) (cfg : SourceConfig)
    (hfirst : f.first_is_cn_surname = true) (hlast : f.last_is_cn_surname = true) :
    (record.source ∈ istinaSources →
      "CN_SURNAME_DOUBLE_DEFAULT_FAM_ISTINA" ∈
        (decide_chinese env record parsed f cfg).reason_codes) ∧
    (record.source ∉ istinaSources →
      ((20 < ((get_surname_frequency_rank (parsed.tok parsed.first_idx).ascii : Int) -
          (get_surname_frequency_rank (parsed.tok parsed.last_idx).ascii : Int)).natAbs →
        ((get_surname_frequency_rank (parsed.tok parsed.last_idx).ascii <
            get_surname_frequency_rank (parsed.tok parsed.first_idx).ascii →
          ("CN_SURNAME_DOUBLE_FREQ_LAST(" ++
            toString (get_surname_frequency_rank (parsed.tok parsed.last_idx).ascii) ++ "<" ++
            toString (get_surname_frequency_rank (parsed.tok parsed.first_idx).ascii) ++ ")") ∈
              (decide_chinese env record parsed f cfg).reason_codes) ∧
         (get_surname_frequency_rank (parsed.tok parsed.first_idx).ascii ≤
            get_surname_frequency_rank (parsed.tok parsed.last_idx).ascii →
          ("CN_SURNAME_DOUBLE_FREQ_FIRST(" ++
            toString (get_surname_frequency_rank (parsed.tok parsed.first_idx).ascii) ++ "<" ++
            toString (get_surname_frequency_rank (parsed.tok parsed.last_idx).ascii) ++ ")") ∈
              (decide_chinese env record parsed f cfg).reason_codes))) ∧
       (((get_surname_frequency_rank (parsed.tok parsed.first_idx).ascii : Int) -
          (get_surname_frequency_rank (parsed.tok parsed.last_idx).ascii : Int)).natAbs ≤ 20 →
        "CN_SURNAME_DOUBLE_DEFAULT_FAM" ∈
          (decide_chinese env record parsed f cfg).reason_codes))) := by
  constructor
  · intro hsrc
    apply double_step_reasons_propagate env record parsed f cfg hfirst hlast
    rw [doubleSurnameStep_istina record _ _ _ hsrc]
    exact List.mem_append_right _ (List.mem_singleton_self _)
  · intro hsrc
    constructor
    · intro hgap
      have hgap' : get_surname_frequency_rank (parsed.tok parsed.first_idx).ascii ≠ 0 ∧
          get_surname_frequency_rank (parsed.tok parsed.last_idx).ascii ≠ 0 ∧
          20 < ((get_surname_frequency_rank (parsed.tok parsed.first_idx).ascii : Int) -
            (get_surname_frequency_rank (parsed.tok parsed.last_idx).ascii : Int)).natAbs :=
        ⟨rank_ne_zero _, rank_ne_zero _, hgap⟩
      constructor
      · intro hlt
        apply double_step_reasons_propagate env record parsed f cfg hfirst hlast
        rw [doubleSurnameStep_freq record _ _ _ hsrc hgap', if_pos hlt]
        exact List.mem_append_right _ (List.mem_singleton_self _)
      · intro hle
        have hnlt : ¬(get_surname_frequency_rank (parsed.tok parsed.last_idx).ascii <
            get_surname_frequency_rank (parsed.tok parsed.first_idx).ascii) := by omega
        apply double_step_reasons_propagate env record parsed f cfg hfirst hlast
        rw [doubleSurnameStep_freq record _ _ _ hsrc hgap', if_neg hnlt]
        exact List.mem_append_right _ (List.mem_singleton_self _)
    · intro hgap
      have hgap' : ¬(get_surname_frequency_rank (parsed.tok parsed.first_idx).ascii ≠ 0 ∧
          get_surname_frequency_rank (parsed.tok parsed.last_idx).ascii ≠ 0 ∧
          20 < ((get_surname_frequency_rank (parsed.tok parsed.first_idx).ascii : Int) -
            (get_surname_frequency_rank (parsed.tok parsed.last_idx).ascii : Int)).natAbs) :=
        fun hc => by omega
      apply double_step_reasons_propagate env record parsed f cfg hfirst hlast
      rw [doubleSurnameStep_default record _ _ _ hsrc hgap']
      exact List.mem_append_right _ (List.mem_singleton_self _)

theorem double_surname_rule_amended_witness :
    ((extract_features env1 (mkRec "c7w" "ISTINA" none none "Ouyang Wang")
        (preprocess_name env1 "Ouyang Wang") ISTINA_CONFIG "CHINESE").first_is_cn_surname
          = true ∧
      (extract_features env1 (mkRec "c7w" "ISTINA" none none "Ouyang Wang")
        (preprocess_name env1 "Ouyang Wang") ISTINA_CONFIG "CHINESE").last_is_cn_surname
          = true ∧
      (mkRec "c7w" "ISTINA" none none "Ouyang Wang").source ∈ istinaSources) ∧
    "CN_SURNAME_DOUBLE_DEFAULT_FAM_ISTINA" ∈
      (decide_chinese env1 (mkRec "c7w" "ISTINA" none none "Ouyang Wang")
        (preprocess_name env1 "Ouyang Wang")
        (extract_features env1 (mkRec "c7w" "ISTINA" none none "Ouyang Wang")
          (preprocess_name env1 "Ouyang Wang") ISTINA_CONFIG "CHINESE")
        ISTINA_CONFIG).reason_codes :=
  ⟨⟨by with_unfolding_all decide, by with_unfolding_all decide,
      by with_unfolding_all decide⟩,
    (double_surname_rule_amended env1 (mkRec "c7w" "ISTINA" none none "Ouyang Wang")
      (preprocess_name env1 "Ouyang Wang")
      (extract_features env1 (mkRec "c7w" "ISTINA" none none "Ouyang Wang")
        (preprocess_name env1 "Ouyang Wang") ISTINA_CONFIG "CHINESE")
      ISTINA_CONFIG (by with_unfolding_all decide) (by with_unfolding_all decide)).1
      (by with_unfolding_all decide)⟩

/-! ## Batch machinery: generic map lemmas -/

theorem updateMap_same (d : DecisionMap) (k : String) (v : NameDecision) :
    updateMap d k v k = some v := by
  simp [updateMap]

theorem updateMap_other (d : DecisionMap) (k : String) (v : NameDecision)
    (x : String) (h : x ≠ k) : updateMap d k v x = d x := by
  simp [updateMap, h]

/-! ## Batch machinery: person-pass lemmas -/

theorem personStep_settled_eq (cfg : SourceConfig) (t : String) (d : DecisionMap)
    (rid x : String) (hs : PersonSettledAt cfg d x) :
    personStep cfg t d rid x = d x := by
  cases hrid : d rid with
  | none => simp only [personStep, hrid]
  | some dd =>
      simp only [personStep, hrid]
      by_cases he : personEligible cfg dd
      · rw [if_pos he]
        by_cases hx : x = rid
        · subst hx
          exact absurd he (hs dd hrid)
        · exact updateMap_other _ _ _ _ hx
      · rw [if_neg he]

theorem personStep_preserves_settled (cfg : SourceConfig) (t : String)
    (d : DecisionMap) (rid x : String) (hs : PersonSettledAt cfg d x) :
    PersonSettledAt cfg (personStep cfg t d rid) x := by
  intro dd h
  rw [personStep_settled_eq cfg t d rid x hs] at h
  exact hs dd h

theorem personStep_self_settled (cfg : SourceConfig) (t : String) (d : DecisionMap)
    (rid : String)
    (hco : cfg.person_override_thresh ≤ cfg.person_override_conf)
    (ht : t ≠ "unknown") :
    PersonSettledAt cfg (personStep cfg t d rid) rid := by
  intro dd' h'
  cases hrid : d rid with
  | none => simp [personStep, hrid] at h'
  | some dd =>
      simp only [personStep, hrid] at h'
      by_cases he : personEligible cfg dd
      · rw [if_pos he, updateMap_same] at h'
        obtain rfl : overridePerson cfg t dd = dd' := Option.some.inj h'
        intro hel
        rcases hel with ho | hc
        · exact ht ho
        · have : cfg.person_override_conf ≤ max dd.confidence cfg.person_override_conf :=
            le_max_right _ _
          simp only [overridePerson] at hc
          exact absurd hc (by push_neg; exact le_trans hco this)
      · rw [if_neg he] at h'
        rw [h'] at hrid
        obtain rfl : dd = dd' := Option.some.inj hrid.symm
        exact he

theorem applyPersonOverrides_settled_eq (cfg : SourceConfig) (t : String)
    (ids : List String) (d : DecisionMap) (x : String)
    (hs : PersonSettledAt cfg d x) :
    applyPersonOverrides cfg t ids d x = d x := by
  induction ids generalizing d with
  | nil => rfl
  | cons i ids ih =>
      show applyPersonOverrides cfg t ids (personStep cfg t d i) x = d x
      rw [ih (personStep cfg t d i) (personStep_preserves_settled cfg t d i x hs),
        personStep_settled_eq cfg t d i x hs]

theorem applyPersonOverrides_preserves_settled (cfg : SourceConfig) (t : String)
    (ids : List String) (d : DecisionMap) (x : String)
    (hs : PersonSettledAt cfg d x) :
    PersonSettledAt cfg (applyPersonOverrides cfg t ids d) x := by
  intro dd h
  rw [applyPersonOverrides_settled_eq cfg t ids d x hs] at h
  exact hs dd h

theorem applyPersonOverrides_settles (cfg : SourceConfig) (t : String)
    (ids : List String) (d : DecisionMap) (x : String) (hx : x ∈ ids)
    (hco : cfg.person_override_thresh ≤ cfg.person_override_conf)
    (ht : t ≠ "unknown") :
    PersonSettledAt cfg (applyPersonOverrides cfg t ids d) x := by
  induction ids generalizing d with
  | nil => cases hx
  | cons i ids ih =>
      show PersonSettledAt cfg (applyPersonOverrides cfg t ids (personStep cfg t d i)) x
      by_cases hmem : x ∈ ids
      · exact ih (personStep cfg t d i) hmem
      · have hxi : x = i := by
          rcases List.mem_cons.mp hx with h | h
          · exact h
          · exact absurd h hmem
        subst hxi
        exact applyPersonOverrides_preserves_settled cfg t ids _ x
          (personStep_self_settled cfg t d x hco ht)

theorem applyPersonOverrides_of_settled (cfg : SourceConfig) (t : String)
    (ids : List String) (d : DecisionMap)
    (hs : ∀ x ∈ ids, PersonSettledAt cfg d x) :
    applyPersonOverrides cfg t ids d = d := by
  induction ids with
  | nil => rfl
  | cons i ids ih =>
      have hstep : personStep cfg t d i = d := by
        cases hrid : d i with
        | none => simp only [personStep, hrid]
        | some dd =>
            simp only [personStep, hrid]
            rw [if_neg (hs i (List.mem_cons_self i ids) dd hrid)]
      show applyPersonOverrides cfg t ids (personStep cfg t d i) = d
      rw [hstep]
      exact ih fun x hx => hs x (List.mem_cons_of_mem i hx)

theorem personStep_not_mem (cfg : SourceConfig) (t : String) (d : DecisionMap)
    (rid x : String) (h : x ≠ rid) : personStep cfg t d rid x = d x := by
  cases hrid : d rid with
  | none => simp only [personStep, hrid]
  | some dd =>
      simp only [personStep, hrid]
      by_cases he : personEligible cfg dd
      · rw [if_pos he]
        exact updateMap_other _ _ _ _ h
      · rw [if_neg he]

theorem applyPersonOverrides_not_mem (cfg : SourceConfig) (t : String)
    (ids : List String) (d : DecisionMap) (x : String) (h : x ∉ ids) :
    applyPersonOverrides cfg t ids d x = d x := by
  induction ids generalizing d with
  | nil => rfl
  | cons i ids ih =>
      show applyPersonOverrides cfg t ids (personStep cfg t d i) x = d x
      rw [ih (personStep cfg t d i) fun hm => h (List.mem_cons_of_mem i hm),
        personStep_not_mem cfg t d i x fun hx => h (hx ▸ List.mem_cons_self i ids)]

theorem processPersonGroup_not_mem (cfg : SourceConfig) (d : DecisionMap)
    (ids : List String) (x : String) (h : x ∉ ids) :
    processPersonGroup cfg d ids x = d x := by
  simp only [processPersonGroup]
  split_ifs <;>
    first
      | rfl
      | exact applyPersonOverrides_not_mem cfg _ ids d x h

theorem processPersonGroup_of_settled (cfg : SourceConfig) (d : DecisionMap)
    (ids : List String) (hs : ∀ x ∈ ids, PersonSettledAt cfg d x) :
    processPersonGroup cfg d ids = d := by
  simp only [processPersonGroup]
  split_ifs <;>
    first
      | rfl
      | exact applyPersonOverrides_of_settled cfg _ ids d hs

theorem processPersonGroup_settled_eq (cfg : SourceConfig) (d : DecisionMap)
    (ids : List String) (x : String) (hs : PersonSettledAt cfg d x) :
    processPersonGroup cfg d ids x = d x := by
  simp only [processPersonGroup]
  split_ifs <;>
    first
      | rfl
      | exact applyPersonOverrides_settled_eq cfg _ ids d x hs

theorem processPersonGroup_of_skips (cfg : SourceConfig) (d : DecisionMap)
    (ids : List String) (h : personSkips cfg d ids) :
    processPersonGroup cfg d ids = d := by
  simp only [processPersonGroup]
  rcases h with h1 | h2
  · rw [if_pos h1]
  · by_cases h1 : (ids.filterMap d).filter (fun dd => dd.order ≠ "unknown") = []
    · rw [if_pos h1]
    · rw [if_neg h1, if_pos h2]

theorem personSkips_congr (cfg : SourceConfig) (d e : DecisionMap) (ids : List String)
    (he : ∀ x ∈ ids, e x = d x) (h : personSkips cfg d ids) :
    personSkips cfg e ids := by
  have hfm : ids.filterMap e = ids.filterMap d := List.filterMap_congr he
  unfold personSkips at h ⊢
  rw [hfm]
  exact h

theorem processPersonGroup_cases (cfg : SourceConfig) (d : DecisionMap)
    (ids : List String)
    (hco : cfg.person_override_thresh ≤ cfg.person_override_conf) :
    personSkips cfg d ids ∨
      ∀ x ∈ ids, PersonSettledAt cfg (processPersonGroup cfg d ids) x := by
  by_cases h1 : (ids.filterMap d).filter (fun dd => dd.order ≠ "unknown") = []
  · exact Or.inl (Or.inl h1)
  by_cases h2 : (((ids.filterMap d).filter fun dd => dd.order ≠ "unknown").filter
      fun dd => dd.order = "family_first" ∧ cfg.person_conf_thresh ≤ dd.confidence).length = 0 ∧
      (((ids.filterMap d).filter fun dd => dd.order ≠ "unknown").filter
      fun dd => dd.order = "given_first" ∧ cfg.person_conf_thresh ≤ dd.confidence).length = 0
  · exact Or.inl (Or.inr h2)
  right
  intro x hx
  have hPd : processPersonGroup cfg d ids =
      applyPersonOverrides cfg
        (if (((ids.filterMap d).filter fun dd => dd.order ≠ "unknown").filter
            fun dd => dd.order = "given_first" ∧ cfg.person_conf_thresh ≤ dd.confidence).length ≤
          (((ids.filterMap d).filter fun dd => dd.order ≠ "unknown").filter
            fun dd => dd.order = "family_first" ∧ cfg.person_conf_thresh ≤ dd.confidence).length
        then "family_first" else "given_first") ids d := by
    simp only [processPersonGroup]
    rw [if_neg h1, if_neg h2]
  rw [hPd]
  exact applyPersonOverrides_settles cfg _ ids d x hx hco (by split_ifs <;> decide)

theorem processPersonGroup_stable (cfg : SourceConfig) (d e : DecisionMap)
    (ids : List String)
    (hco : cfg.person_override_thresh ≤ cfg.person_override_conf)
    (hagree : ∀ x ∈ ids, e x = processPersonGroup cfg d ids x) :
    processPersonGroup cfg e ids = e := by
  rcases processPersonGroup_cases cfg d ids hco with hskip | hset
  · have hPd := processPersonGroup_of_skips cfg d ids hskip
    have he : ∀ x ∈ ids, e x = d x := fun x hx => by rw [hagree x hx, hPd]
    exact processPersonGroup_of_skips cfg e ids (personSkips_congr cfg d e ids he hskip)
  · exact processPersonGroup_of_settled cfg e ids fun x hx dd hdd =>
      hset x hx dd (by rw [← hagree x hx]; exact hdd)

/-! ## Batch machinery: fold over person groups -/

theorem personFold_not_mem (cfg : SourceConfig) (gs : List (String × List String))
    (d : DecisionMap) (x : String) (hx : x ∉ groupIds gs) :
    gs.foldl (fun d g => processPersonGroup cfg d g.2) d x = d x := by
  induction gs generalizing d with
  | nil => rfl
  | cons g gs ih =>
      have hx2 : x ∉ g.2 ∧ x ∉ groupIds gs := by
        simp only [groupIds, List.map_cons, List.flatten_cons, List.mem_append] at hx
        exact ⟨fun h => hx (Or.inl h), fun h => hx (Or.inr h)⟩
      show gs.foldl (fun d g => processPersonGroup cfg d g.2) (processPersonGroup cfg d g.2) x
        = d x
      rw [ih (processPersonGroup cfg d g.2) hx2.2,
        processPersonGroup_not_mem cfg d g.2 x hx2.1]

theorem personFold_idem (cfg : SourceConfig) (gs : List (String × List String))
    (d : DecisionMap) (hnd : (groupIds gs).Nodup)
    (hco : cfg.person_override_thresh ≤ cfg.person_override_conf) :
    gs.foldl (fun d g => processPersonGroup cfg d g.2)
      (gs.foldl (fun d g => processPersonGroup cfg d g.2) d) =
    gs.foldl (fun d g => processPersonGroup cfg d g.2) d := by
  induction gs generalizing d with
  | nil => rfl
  | cons g gs ih =>
      have hnd' : (g.2 ++ groupIds gs).Nodup := by
        simpa [groupIds] using hnd
      rw [List.nodup_append] at hnd'
      have hdisj : ∀ x ∈ g.2, x ∉ groupIds gs := fun x hx hmem => hnd'.2.2 hx hmem
      show gs.foldl (fun d g => processPersonGroup cfg d g.2)
          (processPersonGroup cfg
            (gs.foldl (fun d g => processPersonGroup cfg d g.2)
              (processPersonGroup cfg d g.2)) g.2) =
        gs.foldl (fun d g => processPersonGroup cfg d g.2) (processPersonGroup cfg d g.2)
      have hagree : ∀ x ∈ g.2,
          (gs.foldl (fun d g => processPersonGroup cfg d g.2)
            (processPersonGroup cfg d g.2)) x = processPersonGroup cfg d g.2 x :=
        fun x hx => personFold_not_mem cfg gs _ x (hdisj x hx)
      rw [processPersonGroup_stable cfg d _ g.2 hco hagree]
      exact ih (processPersonGroup cfg d g.2) hnd'.2.1

/-! ## Batch machinery: grouping preserves distinctness of ids -/

theorem groupIds_cons (p : String × List String) (gs : List (String × List String)) :
    groupIds (p :: gs) = p.2 ++ groupIds gs := by
  simp [groupIds]

theorem groupIds_addToGroups (gs : List (String × List String)) (k rid : String) :
    List.Perm (groupIds (addToGroups gs k rid)) (groupIds gs ++ [rid]) := by
  induction gs with
  | nil => simp [addToGroups, groupIds]
  | cons g gs ih =>
      obtain ⟨k', ids⟩ := g
      by_cases hk : k' = k
      · simp only [addToGroups, if_pos hk, groupIds_cons]
        have h1 : (ids ++ [rid]) ++ groupIds gs = ids ++ ([rid] ++ groupIds gs) := by
          simp [List.append_assoc]
        have h3 : ids ++ (groupIds gs ++ [rid]) = (ids ++ groupIds gs) ++ [rid] := by
          simp [List.append_assoc]
        rw [h1, ← h3]
        exact List.Perm.append_left ids List.perm_append_comm
      · simp only [addToGroups, if_neg hk, groupIds_cons]
        have h3 : ids ++ (groupIds gs ++ [rid]) = (ids ++ groupIds gs) ++ [rid] := by
          simp [List.append_assoc]
        rw [← h3]
        exact List.Perm.append_left ids ih

theorem groupIds_foldl_perm (key : NameRecord → Option String)
    (records : List NameRecord) :
    ∀ gs0 : List (String × List String),
      List.Perm
        (groupIds (records.foldl (fun gs r =>
          match key r with
          | none => gs
          | some k => if k = "" then gs else addToGroups gs k r.record_id) gs0))
        (groupIds gs0 ++ keyIds key records) := by
  induction records with
  | nil => intro gs0; simp [keyIds]
  | cons r rest ih =>
      intro gs0
      cases hk : key r with
      | none =>
          simpa [List.foldl_cons, hk, keyIds] using ih gs0
      | some k =>
          by_cases hke : k = ""
          · simpa [List.foldl_cons, hk, hke, keyIds] using ih gs0
          · have step : (r :: rest).foldl (fun gs r =>
                match key r with
                | none => gs
                | some k => if k = "" then gs else addToGroups gs k r.record_id) gs0 =
              rest.foldl (fun gs r =>
                match key r with
                | none => gs
                | some k => if k = "" then gs else addToGroups gs k r.record_id)
                (addToGroups gs0 k r.record_id) := by
              simp [List.foldl_cons, hk, hke]
            rw [step]
            have hkey : keyIds key (r :: rest) = r.record_id :: keyIds key rest := by
              simp [keyIds, hk, hke]
            rw [hkey]
            have p1 := ih (addToGroups gs0 k r.record_id)
            have p2 : List.Perm (groupIds (addToGroups gs0 k r.record_id) ++ keyIds key rest)
                ((groupIds gs0 ++ [r.record_id]) ++ keyIds key rest) :=
              (groupIds_addToGroups gs0 k r.record_id).append_right _
            have h3 : (groupIds gs0 ++ [r.record_id]) ++ keyIds key rest
                = groupIds gs0 ++ (r.record_id :: keyIds key rest) := by
              simp [List.append_assoc]
            exact (p1.trans p2).trans (by rw [h3])

theorem keyIds_sublist (key : NameRecord → Option String) (records : List NameRecord) :
    List.Sublist (keyIds key records) (records.map NameRecord.record_id) := by
  induction records with
  | nil => simp [keyIds]
  | cons r rest ih =>
      cases hk : key r with
      | none => simpa [keyIds, hk] using ih.cons r.record_id
      | some k =>
          by_cases hke : k = ""
          · simpa [keyIds, hk, hke] using ih.cons r.record_id
          · simpa [keyIds, hk, hke] using ih.cons₂ r.record_id

theorem groupBy_ids_nodup (key : NameRecord → Option String)
    (records : List NameRecord)
    (h : (records.map NameRecord.record_id).Nodup) :
    (groupIds (groupBy key records)).Nodup := by
  have hperm : List.Perm (groupIds (groupBy key records)) (keyIds key records) := by
    have := groupIds_foldl_perm key records []
    simpa [groupBy, groupIds] using this
  exact hperm.symm.nodup ((keyIds_sublist key records).nodup h)

/-! ## Batch machinery: publication-pass lemmas -/

theorem pubStep_settled_eq (cfg : SourceConfig) (t : String) (d : DecisionMap)
    (rid x : String) (hs : PubSettledAt cfg d x) :
    pubStep cfg t d rid x = d x := by
  cases hrid : d rid with
  | none => simp only [pubStep, hrid]
  | some dd =>
      simp only [pubStep, hrid]
      by_cases he : pubEligible cfg dd
      · rw [if_pos he]
        by_cases hx : x = rid
        · subst hx
          exact absurd he (hs dd hrid)
        · exact updateMap_other _ _ _ _ hx
      · rw [if_neg he]

theorem pubStep_preserves_settled (cfg : SourceConfig) (t : String)
    (d : DecisionMap) (rid x : String) (hs : PubSettledAt cfg d x) :
    PubSettledAt cfg (pubStep cfg t d rid) x := by
  intro dd h
  rw [pubStep_settled_eq cfg t d rid x hs] at h
  exact hs dd h

theorem pubStep_self_settled (cfg : SourceConfig) (t : String) (d : DecisionMap)
    (rid : String) (ht : t ≠ "unknown") :
    PubSettledAt cfg (pubStep cfg t d rid) rid := by
  intro dd' h'
  cases hrid : d rid with
  | none => simp [pubStep, hrid] at h'
  | some dd =>
      simp only [pubStep, hrid] at h'
      by_cases he : pubEligible cfg dd
      · rw [if_pos he, updateMap_same] at h'
        obtain rfl : overridePub cfg t dd = dd' := Option.some.inj h'
        intro hel
        exact ht hel.1
      · rw [if_neg he] at h'
        rw [h'] at hrid
        obtain rfl : dd = dd' := Option.some.inj hrid.symm
        exact he

theorem applyPubOverrides_settled_eq (cfg : SourceConfig) (t : String)
    (ids : List String) (d : DecisionMap) (x : String)
    (hs : PubSettledAt cfg d x) :
    applyPubOverrides cfg t ids d x = d x := by
  induction ids generalizing d with
  | nil => rfl
  | cons i ids ih =>
      show applyPubOverrides cfg t ids (pubStep cfg t d i) x = d x
      rw [ih (pubStep cfg t d i) (pubStep_preserves_settled cfg t d i x hs),
        pubStep_settled_eq cfg t d i x hs]

theorem applyPubOverrides_preserves_settled (cfg : SourceConfig) (t : String)
    (ids : List String) (d : DecisionMap) (x : String)
    (hs : PubSettledAt cfg d x) :
    PubSettledAt cfg (applyPubOverrides cfg t ids d) x := by
  intro dd h
  rw [applyPubOverrides_settled_eq cfg t ids d x hs] at h
  exact hs dd h

theorem applyPubOverrides_settles (cfg : SourceConfig) (t : String)
    (ids : List String) (d : DecisionMap) (x : String) (hx : x ∈ ids)
    (ht : t ≠ "unknown") :
    PubSettledAt cfg (applyPubOverrides cfg t ids d) x := by
  induction ids generalizing d with
  | nil => cases hx
  | cons i ids ih =>
      show PubSettledAt cfg (applyPubOverrides cfg t ids (pubStep cfg t d i)) x
      by_cases hmem : x ∈ ids
      · exact ih (pubStep cfg t d i) hmem
      · have hxi : x = i := by
          rcases List.mem_cons.mp hx with h | h
          · exact h
          · exact absurd h hmem
        subst hxi
        exact applyPubOverrides_preserves_settled cfg t ids _ x
          (pubStep_self_settled cfg t d x ht)

theorem applyPubOverrides_of_settled (cfg : SourceConfig) (t : String)
    (ids : List String) (d : DecisionMap)
    (hs : ∀ x ∈ ids, PubSettledAt cfg d x) :
    applyPubOverrides cfg t ids d = d := by
  induction ids with
  | nil => rfl
  | cons i ids ih =>
      have hstep : pubStep cfg t d i = d := by
        cases hrid : d i with
        | none => simp only [pubStep, hrid]
        | some dd =>
            simp only [pubStep, hrid]
            rw [if_neg (hs i (List.mem_cons_self i ids) dd hrid)]
      show applyPubOverrides cfg t ids (pubStep cfg t d i) = d
      rw [hstep]
      exact ih fun x hx => hs x (List.mem_cons_of_mem i hx)

theorem pubStep_not_mem (cfg : SourceConfig) (t : String) (d : DecisionMap)
    (rid x : String) (h : x ≠ rid) : pubStep cfg t d rid x = d x := by
  cases hrid : d rid with
  | none => simp only [pubStep, hrid]
  | some dd =>
      simp only [pubStep, hrid]
      by_cases he : pubEligible cfg dd
      · rw [if_pos he]
        exact updateMap_other _ _ _ _ h
      · rw [if_neg he]

theorem applyPubOverrides_not_mem (cfg : SourceConfig) (t : String)
    (ids : List String) (d : DecisionMap) (x : String) (h : x ∉ ids) :
    applyPubOverrides cfg t ids d x = d x := by
  induction ids generalizing d with
  | nil => rfl
  | cons i ids ih =>
      show applyPubOverrides cfg t ids (pubStep cfg t d i) x = d x
      rw [ih (pubStep cfg t d i) fun hm => h (List.mem_cons_of_mem i hm),
        pubStep_not_mem cfg t d i x fun hx => h (hx ▸ List.mem_cons_self i ids)]

theorem processPubGroup_not_mem (cfg : SourceConfig) (d : DecisionMap)
    (ids : List String) (x : String) (h : x ∉ ids) :
    processPubGroup cfg d ids x = d x := by
  simp only [processPubGroup]
  split_ifs <;>
    first
      | rfl
      | exact applyPubOverrides_not_mem cfg _ ids d x h

theorem processPubGroup_of_settled (cfg : SourceConfig) (d : DecisionMap)
    (ids : List String) (hs : ∀ x ∈ ids, PubSettledAt cfg d x) :
    processPubGroup cfg d ids = d := by
  simp only [processPubGroup]
  split_ifs <;>
    first
      | rfl
      | exact applyPubOverrides_of_settled cfg _ ids d hs

theorem processPubGroup_settled_eq (cfg : SourceConfig) (d : DecisionMap)
    (ids : List String) (x : String) (hs : PubSettledAt cfg d x) :
    processPubGroup cfg d ids x = d x := by
  simp only [processPubGroup]
  split_ifs <;>
    first
      | rfl
      | exact applyPubOverrides_settled_eq cfg _ ids d x hs

theorem processPubGroup_of_skips (cfg : SourceConfig) (d : DecisionMap)
    (ids : List String) (h : pubSkips cfg d ids) :
    processPubGroup cfg d ids = d := by
  simp only [processPubGroup]
  rcases h with h1 | h2
  · rw [if_pos h1]
  · by_cases h1 : ((ids.filterMap d).filter
        fun dd => dd.order = "family_first" ∧ cfg.pub_conf_thresh ≤ dd.confidence).length = 0 ∧
        ((ids.filterMap d).filter
        fun dd => dd.order = "given_first" ∧ cfg.pub_conf_thresh ≤ dd.confidence).length = 0
    · rw [if_pos h1]
    · rw [if_neg h1, if_pos h2]

theorem pubSkips_congr (cfg : SourceConfig) (d e : DecisionMap) (ids : List String)
    (he : ∀ x ∈ ids, e x = d x) (h : pubSkips cfg d ids) :
    pubSkips cfg e ids := by
  have hfm : ids.filterMap e = ids.filterMap d := List.filterMap_congr he
  unfold pubSkips at h ⊢
  rw [hfm]
  exact h

theorem processPubGroup_cases (cfg : SourceConfig) (d : DecisionMap)
    (ids : List String) :
    pubSkips cfg d ids ∨
      ∀ x ∈ ids, PubSettledAt cfg (processPubGroup cfg d ids) x := by
  by_cases h1 : ((ids.filterMap d).filter
      fun dd => dd.order = "family_first" ∧ cfg.pub_conf_thresh ≤ dd.confidence).length = 0 ∧
      ((ids.filterMap d).filter
      fun dd => dd.order = "given_first" ∧ cfg.pub_conf_thresh ≤ dd.confidence).length = 0
  · exact Or.inl (Or.inl h1)
  by_cases h2 : |((((ids.filterMap d).filter
      fun dd => dd.order = "family_first" ∧ cfg.pub_conf_thresh ≤ dd.confidence).length : Int)) -
      ((((ids.filterMap d).filter
      fun dd => dd.order = "given_first" ∧ cfg.pub_conf_thresh ≤ dd.confidence).length : Int))| <
      cfg.pub_dominance_min_diff
  · exact Or.inl (Or.inr h2)
  right
  intro x hx
  have hPd : processPubGroup cfg d ids =
      applyPubOverrides cfg
        (if ((ids.filterMap d).filter
              fun dd => dd.order = "given_first" ∧ cfg.pub_conf_thresh ≤ dd.confidence).length <
            ((ids.filterMap d).filter
              fun dd => dd.order = "family_first" ∧ cfg.pub_conf_thresh ≤ dd.confidence).length
          then "family_first" else "given_first") ids d := by
    simp only [processPubGroup]
    rw [if_neg h1, if_neg h2]
  rw [hPd]
  exact applyPubOverrides_settles cfg _ ids d x hx (by split_ifs <;> decide)

theorem processPubGroup_stable (cfg : SourceConfig) (d e : DecisionMap)
    (ids : List String)
    (hagree : ∀ x ∈ ids, e x = processPubGroup cfg d ids x) :
    processPubGroup cfg e ids = e := by
  rcases processPubGroup_cases cfg d ids with hskip | hset
  · have hPd := processPubGroup_of_skips cfg d ids hskip
    have he : ∀ x ∈ ids, e x = d x := fun x hx => by rw [hagree x hx, hPd]
    exact processPubGroup_of_skips cfg e ids (pubSkips_congr cfg d e ids he hskip)
  · exact processPubGroup_of_settled cfg e ids fun x hx dd hdd =>
      hset x hx dd (by rw [← hagree x hx]; exact hdd)

theorem pubFold_not_mem (cfg : SourceConfig) (gs : List (String × List String))
    (d : DecisionMap) (x : String) (hx : x ∉ groupIds gs) :
    gs.foldl (fun d g => processPubGroup cfg d g.2) d x = d x := by
  induction gs generalizing d with
  | nil => rfl
  | cons g gs ih =>
      have hx2 : x ∉ g.2 ∧ x ∉ groupIds gs := by
        simp only [groupIds, List.map_cons, List.flatten_cons, List.mem_append] at hx
        exact ⟨fun h => hx (Or.inl h), fun h => hx (Or.inr h)⟩
      show gs.foldl (fun d g => processPubGroup cfg d g.2) (processPubGroup cfg d g.2) x = d x
      rw [ih (processPubGroup cfg d g.2) hx2.2,
        processPubGroup_not_mem cfg d g.2 x hx2.1]

theorem pubFold_idem (cfg : SourceConfig) (gs : List (String × List String))
    (d : DecisionMap) (hnd : (groupIds gs).Nodup) :
    gs.foldl (fun d g => processPubGroup cfg d g.2)
      (gs.foldl (fun d g => processPubGroup cfg d g.2) d) =
    gs.foldl (fun d g => processPubGroup cfg d g.2) d := by
  induction gs generalizing d with
  | nil => rfl
  | cons g gs ih =>
      have hnd' : (g.2 ++ groupIds gs).Nodup := by
        simpa [groupIds] using hnd
      rw [List.nodup_append] at hnd'
      have hdisj : ∀ x ∈ g.2, x ∉ groupIds gs := fun x hx hmem => hnd'.2.2 hx hmem
      show gs.foldl (fun d g => processPubGroup cfg d g.2)
          (processPubGroup cfg
            (gs.foldl (fun d g => processPubGroup cfg d g.2)
              (processPubGroup cfg d g.2)) g.2) =
        gs.foldl (fun d g => processPubGroup cfg d g.2) (processPubGroup cfg d g.2)
      have hagree : ∀ x ∈ g.2,
          (gs.foldl (fun d g => processPubGroup cfg d g.2)
            (processPubGroup cfg d g.2)) x = processPubGroup cfg d g.2 x :=
        fun x hx => pubFold_not_mem cfg gs _ x (hdisj x hx)
      rw [processPubGroup_stable cfg d _ g.2 hagree]
      exact ih (processPubGroup cfg d g.2) hnd'.2.1

theorem personFold_settled_eq (cfg : SourceConfig) (gs : List (String × List String))
    (d : DecisionMap) (x : String) (hs : PersonSettledAt cfg d x) :
    gs.foldl (fun d g => processPersonGroup cfg d g.2) d x = d x := by
  induction gs generalizing d with
  | nil => rfl
  | cons g gs ih =>
      have hval := processPersonGroup_settled_eq cfg d g.2 x hs
      have hs' : PersonSettledAt cfg (processPersonGroup cfg d g.2) x := by
        intro dd h
        rw [hval] at h
        exact hs dd h
      show gs.foldl (fun d g => processPersonGroup cfg d g.2)
          (processPersonGroup cfg d g.2) x = d x
      rw [ih (processPersonGroup cfg d g.2) hs', hval]

theorem pubFold_settled_eq (cfg : SourceConfig) (gs : List (String × List String))
    (d : DecisionMap) (x : String) (hs : PubSettledAt cfg d x) :
    gs.foldl (fun d g => processPubGroup cfg d g.2) d x = d x := by
  induction gs generalizing d with
  | nil => rfl
  | cons g gs ih =>
      have hval := processPubGroup_settled_eq cfg d g.2 x hs
      have hs' : PubSettledAt cfg (processPubGroup cfg d g.2) x := by
        intro dd h
        rw [hval] at h
        exact hs dd h
      show gs.foldl (fun d g => processPubGroup cfg d g.2)
          (processPubGroup cfg d g.2) x = d x
      rw [ih (processPubGroup cfg d g.2) hs', hval]

theorem applyPersonOverrides_mem_eligible (cfg : SourceConfig) (t : String)
    (ids : List String) (d : DecisionMap) (x : String) (dd : NameDecision)
    (hnd : ids.Nodup) (hx : x ∈ ids) (hdx : d x = some dd)
    (he : personEligible cfg dd) :
    applyPersonOverrides cfg t ids d x = some (overridePerson cfg t dd) := by
  induction ids generalizing d with
  | nil => cases hx
  | cons i ids ih =>
      show applyPersonOverrides cfg t ids (personStep cfg t d i) x = _
      rcases List.mem_cons.mp hx with heq | hmem
      · subst heq
        have hstep : personStep cfg t d x x = some (overridePerson cfg t dd) := by
          simp only [personStep, hdx]
          rw [if_pos he, updateMap_same]
        have hni : x ∉ ids := (List.nodup_cons.mp hnd).1
        rw [applyPersonOverrides_not_mem cfg t ids _ x hni, hstep]
      · have hxi : x ≠ i := fun h => (List.nodup_cons.mp hnd).1 (h ▸ hmem)
        exact ih (personStep cfg t d i) (List.nodup_cons.mp hnd).2 hmem
          (by rw [personStep_not_mem cfg t d i x hxi]; exact hdx)

/-! ## C3 (corrected) -/

/-- C3 counterexample: four records in which record id "X" appears in
both person groups P2 and P1.  The first run settles P1 and overrides
"X"; in the second run "X" is a fresh qualifying vote for the
previously vote-less group P2, which then overrides "C" — so the pass
changes its own output. -/
theorem person_pass_not_idempotent_counterexample :
    adjust_by_person
        [mkRec "C" "" (some "P2") none "李 明", mkRec "X" "" (some "P2") none "李 明",
         mkRec "A" "" (some "P1") none "Liu W.", mkRec "X" "" (some "P1") none "李 明"]
        (adjust_by_person
          [mkRec "C" "" (some "P2") none "李 明", mkRec "X" "" (some "P2") none "李 明",
           mkRec "A" "" (some "P1") none "Liu W.", mkRec "X" "" (some "P1") none "李 明"]
          (localDecisions env0
            [mkRec "C" "" (some "P2") none "李 明", mkRec "X" "" (some "P2") none "李 明",
             mkRec "A" "" (some "P1") none "Liu W.", mkRec "X" "" (some "P1") none "李 明"]
            (get_config none))
          (get_config none))
        (get_config none) "C" ≠
      adjust_by_person
        [mkRec "C" "" (some "P2") none "李 明", mkRec "X" "" (some "P2") none "李 明",
         mkRec "A" "" (some "P1") none "Liu W.", mkRec "X" "" (some "P1") none "李 明"]
        (localDecisions env0
          [mkRec "C" "" (some "P2") none "李 明", mkRec "X" "" (some "P2") none "李 明",
           mkRec "A" "" (some "P1") none "Liu W.", mkRec "X" "" (some "P1") none "李 明"]
          (get_config none))
        (get_config none) "C" := by
  with_unfolding_all decide

/-- C3 (amended): provided the records carry pairwise-distinct record
ids, re-running either consistency pass on its own output is a no-op;
for the person pass this additionally uses that the override
confidence is at or above the override threshold, which holds in every
shipped configuration. -/
theorem consistency_passes_idempotent_amended (records : List NameRecord)
    (d : DecisionMap) (cfg : SourceConfig)
    (hids : (records.map NameRecord.record_id).Nodup)
    (hco : cfg.person_override_thresh ≤ cfg.person_override_conf) :
    adjust_by_person records (adjust_by_person records d cfg) cfg =
      adjust_by_person records d cfg ∧
    adjust_by_publication records (adjust_by_publication records d cfg) cfg =
      adjust_by_publication records d cfg :=
  ⟨personFold_idem cfg _ d (groupBy_ids_nodup _ records hids) hco,
    pubFold_idem cfg _ d (groupBy_ids_nodup _ records hids)⟩

theorem consistency_passes_idempotent_amended_witness :
    (([mkRec "b1" "" (some "P1") (some "J1") "Liu W.",
       mkRec "b2" "" (some "P1") (some "J1") "李 明"].map NameRecord.record_id).Nodup ∧
      DEFAULT_CONFIG.person_override_thresh ≤ DEFAULT_CONFIG.person_override_conf) ∧
    (adjust_by_person
        [mkRec "b1" "" (some "P1") (some "J1") "Liu W.",
         mkRec "b2" "" (some "P1") (some "J1") "李 明"]
        (adjust_by_person
          [mkRec "b1" "" (some "P1") (some "J1") "Liu W.",
           mkRec "b2" "" (some "P1") (some "J1") "李 明"]
          (localDecisions env0
            [mkRec "b1" "" (some "P1") (some "J1") "Liu W.",
             mkRec "b2" "" (some "P1") (some "J1") "李 明"] DEFAULT_CONFIG)
          DEFAULT_CONFIG)
        DEFAULT_CONFIG =
      adjust_by_person
        [mkRec "b1" "" (some "P1") (some "J1") "Liu W.",
         mkRec "b2" "" (some "P1") (some "J1") "李 明"]
        (localDecisions env0
          [mkRec "b1" "" (some "P1") (some "J1") "Liu W.",
           mkRec "b2" "" (some "P1") (some "J1") "李 明"] DEFAULT_CONFIG)
        DEFAULT_CONFIG ∧
      adjust_by_publication
        [mkRec "b1" "" (some "P1") (some "J1") "Liu W.",
         mkRec "b2" "" (some "P1") (some "J1") "李 明"]
        (adjust_by_publication
          [mkRec "b1" "" (some "P1") (some "J1") "Liu W.",
           mkRec "b2" "" (some "P1") (some "J1") "李 明"]
          (localDecisions env0
            [mkRec "b1" "" (some "P1") (some "J1") "Liu W.",
             mkRec "b2" "" (some "P1") (some "J1") "李 明"] DEFAULT_CONFIG)
          DEFAULT_CONFIG)
        DEFAULT_CONFIG =
      adjust_by_publication
        [mkRec "b1" "" (some "P1") (some "J1") "Liu W.",
         mkRec "b2" "" (some "P1") (some "J1") "李 明"]
        (localDecisions env0
          [mkRec "b1" "" (some "P1") (some "J1") "Liu W.",
           mkRec "b2" "" (some "P1") (some "J1") "李 明"] DEFAULT_CONFIG)
        DEFAULT_CONFIG) :=
  ⟨⟨by with_unfolding_all decide, by with_unfolding_all decide⟩,
    consistency_passes_idempotent_amended
      [mkRec "b1" "" (some "P1") (some "J1") "Liu W.",
       mkRec "b2" "" (some "P1") (some "J1") "李 明"]
      (localDecisions env0
        [mkRec "b1" "" (some "P1") (some "J1") "Liu W.",
         mkRec "b2" "" (some "P1") (some "J1") "李 明"] DEFAULT_CONFIG)
      DEFAULT_CONFIG (by with_unfolding_all decide) (by with_unfolding_all decide)⟩

/-! ## C4 (corrected) -/

/-- C4 counterexample: an ORCID batch where record "r1" resolves
locally to unknown at confidence 0.5, exactly the ORCID person
override floor; the claim says a record at or above the floor is never
altered, whatever its order, yet the batch result replaces it. -/
theorem override_floor_unknown_counterexample :
    (local_decision env0 (mkRec "r1" "ORCID" (some "P1") none "李 明") ORCID_CONFIG).order
        = "unknown" ∧
    ORCID_CONFIG.person_override_thresh ≤
      (local_decision env0 (mkRec "r1" "ORCID" (some "P1") none "李 明") ORCID_CONFIG).confidence ∧
    batch_identify_surname_position_v8 env0
        [mkRec "r1" "ORCID" (some "P1") none "李 明",
         mkRec "r2" "ORCID" (some "P1") none "Liu W."] (some "ORCID") true true "r1" ≠
      some (local_decision env0 (mkRec "r1" "ORCID" (some "P1") none "李 明") ORCID_CONFIG) := by
  with_unfolding_all decide

/-- C4 (amended): a Decision whose order is not unknown and whose
confidence is at or above the person override floor is left untouched
by both passes; the exemption does not cover unknown-order Decisions,
which the person pass replaces at any confidence and the publication
pass replaces up to and including its floor. -/
theorem override_floor_safety_amended (records : List NameRecord) (d : DecisionMap)
    (cfg : SourceConfig) (x : String) (dd : NameDecision)
    (hdx : d x = some dd) (ho : dd.order ≠ "unknown")
    (hp : cfg.person_override_thresh ≤ dd.confidence) :
    adjust_by_person records d cfg x = some dd ∧
    adjust_by_publication records d cfg x = some dd := by
  have hsp : PersonSettledAt cfg d x := by
    intro dd' h'
    rw [hdx] at h'
    obtain rfl : dd = dd' := Option.some.inj h'
    intro hel
    rcases hel with h | h
    · exact ho h
    · exact absurd hp (by push_neg; exact h)
  have hsb : PubSettledAt cfg d x := by
    intro dd' h'
    rw [hdx] at h'
    obtain rfl : dd = dd' := Option.some.inj h'
    exact fun hel => ho hel.1
  constructor
  · show (groupBy (fun r => r.person_id) records).foldl
        (fun d g => processPersonGroup cfg d g.2) d x = some dd
    rw [personFold_settled_eq cfg _ d x hsp]
    exact hdx
  · show (groupBy (fun r => r.publication_id) records).foldl
        (fun d g => processPubGroup cfg d g.2) d x = some dd
    rw [pubFold_settled_eq cfg _ d x hsb]
    exact hdx

theorem override_floor_safety_amended_witness :
    ((fun y => if y = "k1" then
        some (NameDecision.mk "family_first" 0.9 "CHINESE" []) else none) "k1" =
      some (NameDecision.mk "family_first" 0.9 "CHINESE" []) ∧
     (NameDecision.mk "family_first" 0.9 "CHINESE" []).order ≠ "unknown" ∧
     DEFAULT_CONFIG.person_override_thresh ≤
       (NameDecision.mk "family_first" 0.9 "CHINESE" []).confidence) ∧
    adjust_by_person [mkRec "k1" "" (some "P9") (some "J9") "Liu W."]
      (fun y => if y = "k1" then
        some (NameDecision.mk "family_first" 0.9 "CHINESE" []) else none)
      DEFAULT_CONFIG "k1" = some (NameDecision.mk "family_first" 0.9 "CHINESE" []) ∧
    adjust_by_publication [mkRec "k1" "" (some "P9") (some "J9") "Liu W."]
      (fun y => if y = "k1" then
        some (NameDecision.mk "family_first" 0.9 "CHINESE" []) else none)
      DEFAULT_CONFIG "k1" = some (NameDecision.mk "family_first" 0.9 "CHINESE" []) :=
  ⟨⟨by with_unfolding_all decide, by with_unfolding_all decide,
      by with_unfolding_all decide⟩,
    (override_floor_safety_amended [mkRec "k1" "" (some "P9") (some "J9") "Liu W."]
      (fun y => if y = "k1" then
        some (NameDecision.mk "family_first" 0.9 "CHINESE" []) else none)
      DEFAULT_CONFIG "k1" (NameDecision.mk "family_first" 0.9 "CHINESE" [])
      (by with_unfolding_all decide) (by with_unfolding_all decide)
      (by with_unfolding_all decide)).1,
    (override_floor_safety_amended [mkRec "k1" "" (some "P9") (some "J9") "Liu W."]
      (fun y => if y = "k1" then
        some (NameDecision.mk "family_first" 0.9 "CHINESE" []) else none)
      DEFAULT_CONFIG "k1" (NameDecision.mk "family_first" 0.9 "CHINESE" [])
      (by with_unfolding_all decide) (by with_unfolding_all decide)
      (by with_unfolding_all decide)).2⟩

/-! ## C5 (corrected) -/

/-- C5 counterexample: an identity group with exactly one qualifying
family_first vote (confidence 1.0) and one qualifying given_first vote
(confidence 0.85) — no strict majority — still replaces its unknown
member, with family_first: ties go to family_first, contradicting the
claim that an even split leaves the group untouched. -/
theorem person_majority_tie_counterexample :
    adjust_by_person
        [mkRec "rf" "" (some "P1") none "Liu W.", mkRec "rg" "" (some "P1") none "W. Liu",
         mkRec "ru" "" (some "P1") none "李 明"]
        (localDecisions env0
          [mkRec "rf" "" (some "P1") none "Liu W.", mkRec "rg" "" (some "P1") none "W. Liu",
           mkRec "ru" "" (some "P1") none "李 明"] DEFAULT_CONFIG)
        DEFAULT_CONFIG "ru" ≠
      localDecisions env0
        [mkRec "rf" "" (some "P1") none "Liu W.", mkRec "rg" "" (some "P1") none "W. Liu",
         mkRec "ru" "" (some "P1") none "李 明"] DEFAULT_CONFIG "ru" := by
  with_unfolding_all decide

/-- C5 (amended): in a person group with distinct member ids, a member
that is unknown or below the override floor is replaced whenever the
group holds at least one qualifying vote; the dominant order is
family_first exactly when the qualifying family_first votes are at
least as many as the given_first votes (an even split defaults to
family_first), and given_first otherwise. -/
theorem person_group_override_amended (cfg : SourceConfig) (d : DecisionMap)
    (ids : List String) (x : String) (dd : NameDecision)
    (hnd : ids.Nodup) (hx : x ∈ ids) (hdx : d x = some dd)
    (helig : dd.order = "unknown" ∨ dd.confidence < cfg.person_override_thresh)
    (hvote : ¬((((ids.filterMap d).filter fun dd => dd.order ≠ "unknown").filter
        fun dd => dd.order = "family_first" ∧ cfg.person_conf_thresh ≤ dd.confidence).length = 0 ∧
      (((ids.filterMap d).filter fun dd => dd.order ≠ "unknown").filter
        fun dd => dd.order = "given_first" ∧ cfg.person_conf_thresh ≤ dd.confidence).length = 0)) :
    processPersonGroup cfg d ids x =
      some (overridePerson cfg
        (if (((ids.filterMap d).filter fun dd => dd.order ≠ "unknown").filter
            fun dd => dd.order = "given_first" ∧ cfg.person_conf_thresh ≤ dd.confidence).length ≤
          (((ids.filterMap d).filter fun dd => dd.order ≠ "unknown").filter
            fun dd => dd.order = "family_first" ∧ cfg.person_conf_thresh ≤ dd.confidence).length
          then "family_first" else "given_first") dd) := by
  have h1 : ¬((ids.filterMap d).filter fun dd => dd.order ≠ "unknown") = [] := by
    intro h
    apply hvote
    rw [h]
    simp
  simp only [processPersonGroup]
  rw [if_neg h1, if_neg hvote]
  exact applyPersonOverrides_mem_eligible cfg _ ids d x dd hnd hx hdx helig

theorem person_group_override_amended_witness :
    (["v1", "u1"].Nodup ∧ ("u1" : String) ∈ (["v1", "u1"] : List String) ∧
      (fun y => if y = "v1" then some (NameDecision.mk "family_first" 1 "ABBREVIATION" [])
        else if y = "u1" then some (NameDecision.mk "unknown" 0.5 "CHINESE" []) else none) "u1" =
        some (NameDecision.mk "unknown" 0.5 "CHINESE" [])) ∧
    processPersonGroup DEFAULT_CONFIG
      (fun y => if y = "v1" then some (NameDecision.mk "family_first" 1 "ABBREVIATION" [])
        else if y = "u1" then some (NameDecision.mk "unknown" 0.5 "CHINESE" []) else none)
      ["v1", "u1"] "u1" =
      some (overridePerson DEFAULT_CONFIG
        (if ((((["v1", "u1"] : List String).filterMap
            (fun y => if y = "v1" then some (NameDecision.mk "family_first" 1 "ABBREVIATION" [])
              else if y = "u1" then some (NameDecision.mk "unknown" 0.5 "CHINESE" []) else none)).filter
            fun dd => dd.order ≠ "unknown").filter
            fun dd => dd.order = "given_first" ∧
              DEFAULT_CONFIG.person_conf_thresh ≤ dd.confidence).length ≤
          ((((["v1", "u1"] : List String).filterMap
            (fun y => if y = "v1" then some (NameDecision.mk "family_first" 1 "ABBREVIATION" [])
              else if y = "u1" then some (NameDecision.mk "unknown" 0.5 "CHINESE" []) else none)).filter
            fun dd => dd.order ≠ "unknown").filter
            fun dd => dd.order = "family_first" ∧
              DEFAULT_CONFIG.person_conf_thresh ≤ dd.confidence).length
          then "family_first" else "given_first")
        (NameDecision.mk "unknown" 0.5 "CHINESE" [])) :=
  ⟨⟨by with_unfolding_all decide, by with_unfolding_all decide,
      by with_unfolding_all decide⟩,
    person_group_override_amended DEFAULT_CONFIG
      (fun y => if y = "v1" then some (NameDecision.mk "family_first" 1 "ABBREVIATION" [])
        else if y = "u1" then some (NameDecision.mk "unknown" 0.5 "CHINESE" []) else none)
      ["v1", "u1"] "u1" (NameDecision.mk "unknown" 0.5 "CHINESE" [])
      (by with_unfolding_all decide) (by with_unfolding_all decide)
      (by with_unfolding_all decide) (Or.inl (by with_unfolding_all decide))
      (by with_unfolding_all decide)⟩

/-! ## C10: helper lemmas -/

theorem localFold_not_mem (env : Env) (cfg : SourceConfig)
    (records : List NameRecord) (d0 : DecisionMap) (x : String)
    (h : x ∉ records.map NameRecord.record_id) :
    records.foldl (fun d r =>
      let rec_cfg := if r.source = "" then cfg else get_config (some r.source)
      updateMap d r.record_id (local_decision env r rec_cfg)) d0 x = d0 x := by
  induction records generalizing d0 with
  | nil => rfl
  | cons rc rest ih =>
      have hx : x ≠ rc.record_id ∧ x ∉ rest.map NameRecord.record_id := by
        simp only [List.map_cons, List.mem_cons] at h
        exact ⟨fun hh => h (Or.inl hh), fun hh => h (Or.inr hh)⟩
      show rest.foldl _ (updateMap d0 rc.record_id _) x = d0 x
      rw [ih _ hx.2, updateMap_other _ _ _ _ hx.1]

theorem localFold_mem (env : Env) (cfg : SourceConfig) :
    ∀ (records : List NameRecord) (d0 : DecisionMap) (r : NameRecord),
      (records.map NameRecord.record_id).Nodup → r ∈ records →
      records.foldl (fun d r =>
        let rec_cfg := if r.source = "" then cfg else get_config (some r.source)
        updateMap d r.record_id (local_decision env r rec_cfg)) d0 r.record_id =
      some (local_decision env r
        (if r.source = "" then cfg else get_config (some r.source))) := by
  intro records
  induction records with
  | nil => intro d0 r _ hr; cases hr
  | cons rc rest ih =>
      intro d0 r hnd hr
      have hnd' : rc.record_id ∉ rest.map NameRecord.record_id ∧
          (rest.map NameRecord.record_id).Nodup := by
        simpa [List.nodup_cons] using hnd
      rcases List.mem_cons.mp hr with heq | hmem
      · subst heq
        show rest.foldl _ (updateMap d0 r.record_id _) r.record_id = _
        rw [localFold_not_mem env cfg rest _ _ hnd'.1, updateMap_same]
      · exact ih _ r hnd'.2 hmem

theorem groupBy_map_eq (key : NameRecord → Option String) (g : NameRecord → NameRecord)
    (hkey : ∀ r, key (g r) = key r) (hid : ∀ r, (g r).record_id = r.record_id)
    (records : List NameRecord) :
    groupBy key (records.map g) = groupBy key records := by
  unfold groupBy
  rw [List.foldl_map]
  congr 1
  funext gs r
  rw [hkey, hid]

/-! ## C10 -/

/-- C10: in the batch interface, each record's local decision is made
with the configuration of that record's own source tag (the batch
argument's configuration only when the tag is falsy), while both
consistency passes are driven solely by the batch-level source
argument's configuration — rewriting every record's source tag leaves
both passes unchanged. -/
theorem batch_config_routing (env : Env) (records : List NameRecord)
    (source : Option String) (f : NameRecord → String) (r : NameRecord)
    (d : DecisionMap) (cfg : SourceConfig)
    (hnd : (records.map NameRecord.record_id).Nodup) (hr : r ∈ records) :
    localDecisions env records (get_config source) r.record_id =
      some (local_decision env r
        (if r.source = "" then get_config source else get_config (some r.source))) ∧
    adjust_by_person (records.map fun rr => setSource rr (f rr)) d cfg =
      adjust_by_person records d cfg ∧
    adjust_by_publication (records.map fun rr => setSource rr (f rr)) d cfg =
      adjust_by_publication records d cfg ∧
    batch_identify_surname_position_v8 env records source true true =
      adjust_by_publication records
        (adjust_by_person records (localDecisions env records (get_config source))
          (get_config source)) (get_config source) := by
  refine ⟨?_, ?_, ?_, rfl⟩
  · exact localFold_mem env (get_config source) records _ r hnd hr
  · unfold adjust_by_person
    rw [groupBy_map_eq (fun rr => rr.person_id) (fun rr => setSource rr (f rr))
      (fun rr => rfl) (fun rr => rfl) records]
  · unfold adjust_by_publication
    rw [groupBy_map_eq (fun rr => rr.publication_id) (fun rr => setSource rr (f rr))
      (fun rr => rfl) (fun rr => rfl) records]

theorem batch_config_routing_witness :
    (([mkRec "t1" "ISTINA" (some "P1") none "Liu W.",
       mkRec "t2" "CROSSREF" (some "P1") none "李 明"].map NameRecord.record_id).Nodup ∧
      mkRec "t2" "CROSSREF" (some "P1") none "李 明" ∈
        [mkRec "t1" "ISTINA" (some "P1") none "Liu W.",
         mkRec "t2" "CROSSREF" (some "P1") none "李 明"]) ∧
    localDecisions env0
        [mkRec "t1" "ISTINA" (some "P1") none "Liu W.",
         mkRec "t2" "CROSSREF" (some "P1") none "李 明"] (get_config (some "ORCID")) "t2" =
      some (local_decision env0 (mkRec "t2" "CROSSREF" (some "P1") none "李 明")
        (if (mkRec "t2" "CROSSREF" (some "P1") none "李 明").source = ""
          then get_config (some "ORCID")
          else get_config (some (mkRec "t2" "CROSSREF" (some "P1") none "李 明").source))) :=
  ⟨⟨by decide, by decide⟩,
    (batch_config_routing env0
      [mkRec "t1" "ISTINA" (some "P1") none "Liu W.",
       mkRec "t2" "CROSSREF" (some "P1") none "李 明"]
      (some "ORCID") (fun _ => "ISTINA")
      (mkRec "t2" "CROSSREF" (some "P1") none "李 明")
      (fun _ => none) DEFAULT_CONFIG
      (by decide) (by decide)).1⟩

end SurnameV8
